import Mathlib

/-!
# ev3dev: attribute decoding, discovery and the Wait predicate

A shallow embedding of `ev3dev.go` and `ev3dev/lego_port.go`.

Conventions of the embedding.

* A Go `string` or `[]byte` is a `List Char`; every element stands for one byte.
* `MotorState` is Go's `uint`, embedded as `Nat`.  Only `&`, `|` and `^` are
  applied to it, and none of them leaves the range of the operands.
* A Go `int` is an `Int`; the width matters only in `strconv.Atoi`, which takes
  it as the parameter `intSize`.
* A function whose Go body can raise a run-time panic returns an `Option`;
  `none` is the panic.
* `Wait` loops on a clock: its embedding takes the clock, the reads and the
  polls as an environment and a bound on the runs of the loop body, and its
  result is a `Run`: a return, a panic, or a loop that is still running.
-/

set_option maxRecDepth 100000

namespace Ev3dev

/-- A Go string (or byte slice). -/
abbrev GoString := List Char

/-- The type `MotorState uint` of the source. -/
abbrev MotorState := Nat

def Running : MotorState := 1 <<< 0
def Ramping : MotorState := 1 <<< 1
def Holding : MotorState := 1 <<< 2
def Overloaded : MotorState := 1 <<< 3
def Stalled : MotorState := 1 <<< 4

/-- The function `stateIsOK` of `ev3dev.go`: the predicate `Wait` evaluates on
every status it reads. -/
def stateIsOK (stat mask want not : MotorState) (any : Bool) : Bool :=
  if any then
    let stat := stat &&& mask
    (stat ^^^ not != 0) && (stat &&& not == 0)
  else
    (stat &&& mask) ^^^ not == want ||| not

/-! ## Strings and library calls -/

def running : GoString := "running".toList
def ramping : GoString := "ramping".toList
def holding : GoString := "holding".toList
def overloaded : GoString := "overloaded".toList
def stalled : GoString := "stalled".toList

def linearPrefix : GoString := "linear".toList
def motorPrefix : GoString := "motor".toList
def portPrefix : GoString := "port".toList
def sensorPrefix : GoString := "sensor".toList

def LegoPortPath : GoString := "/sys/class/lego-port".toList
def TachoMotorPath : GoString := "/sys/class/tacho-motor".toList

def address : GoString := "address".toList
def driverName : GoString := "driver_name".toList
def mode : GoString := "mode".toList
def setDevice : GoString := "set_device".toList
def state : GoString := "state".toList

/-- Errors produced by the Go library calls the sources make. -/
inductive LibError where
  /-- An error for which `os.IsNotExist` holds. -/
  | notExist
  /-- The value `io.EOF`. -/
  | eof
  /-- Any other error of the operating system, by number. -/
  | os (code : Nat)
  /-- The `*strconv.NumError` of `strconv.Atoi` on `num` (syntax or range). -/
  | numError (num : GoString)
  /-- The value `syntaxError(line)`; the type is declared outside the two
  source files. -/
  | syntaxError (line : GoString)
  deriving DecidableEq, Repr

/-- The call `os.IsNotExist(err)` on a non-nil error. -/
def LibError.IsNotExist : LibError → Bool
  | .notExist => true
  | _ => false

/-- What the methods `Path`, `Type` and `String` of a `Device` return. -/
structure DevInfo where
  path : GoString
  typ : GoString
  name : GoString
  deriving DecidableEq, Repr

/-- An operand of `fmt.Errorf`. -/
inductive Arg where
  | str (s : GoString)
  | int (i : Int)
  | err (e : LibError)
  /-- An operand printed with `%T`: the name of its concrete type. -/
  | typ (name : GoString)
  deriving DecidableEq, Repr

/-- The error values of the package.  An error built by `fmt.Errorf` is kept as
its format string and operands; the constructors `invalidValue` and `attrOp`
stand for the results of `newInvalidValueError` and `newAttrOpError`, which
are declared outside the two source files and only store their arguments. -/
inductive Error where
  /-- A library error returned as it is. -/
  | lib (e : LibError)
  /-- The result of `fmt.Errorf(format, args...)`. -/
  | errorf (format : GoString) (args : List Arg)
  /-- The struct `DriverMismatch`. -/
  | driverMismatch (Want Have : GoString)
  /-- The result of `newInvalidValueError(d, attr, msg, value, valid)`. -/
  | invalidValue (d : DevInfo) (attr msg value : GoString) (valid : List GoString)
  /-- The result of `newAttrOpError(d, attr, data, op, err)`. -/
  | attrOp (d : DevInfo) (attr data op : GoString) (e : LibError)
  /-- The result of `errors.New("ev3dev: buffer full")`. -/
  | bufferFull
  /-- The result of `newParseError(d, attr, err)`. -/
  | parse (d : DevInfo) (attr : GoString) (e : LibError)
  deriving DecidableEq, Repr

/-- Modelled from the spec: `newInvalidValueError` is declared outside the two
source files; the invalid-value error of the spec "carries the offending token
and the full valid vocabulary", so the value keeps the arguments of the
call. -/
def newInvalidValueError (d : DevInfo) (attr msg value : GoString)
    (valid : List GoString) : Error :=
  .invalidValue d attr msg value valid

/-- Modelled from the spec: `newAttrOpError` is declared outside the two source
files; an I/O failure "is wrapped with device class, instance id, and attribute
name", so the value keeps the arguments of the call. -/
def newAttrOpError (d : DevInfo) (attr data op : GoString) (e : LibError) : Error :=
  .attrOp d attr data op e

/-- Modelled from the spec: `newParseError` is declared outside the two source
files; a parse failure names the attribute, so the value keeps the arguments of
the call. -/
def newParseError (d : DevInfo) (attr : GoString) (e : LibError) : Error :=
  .parse d attr e

/-- The file system as the package sees it.  `ReadFile` is `ioutil.ReadFile`
(the bytes read and the error), `Readdirnames` is `os.Open` followed by
`Readdirnames(0)`, `writeErr` tells for which paths `ioutil.WriteFile` fails,
and `written` records the writes issued so far, latest first.  Paths are
consulted as the strings the code builds. -/
structure Store where
  ReadFile : GoString → GoString × Option LibError
  Readdirnames : GoString → List GoString × Option LibError
  writeErr : GoString → Option LibError
  written : List (GoString × GoString)

/-- The call `ioutil.WriteFile(path, data, 0)`: the write is recorded; when it
succeeds a later `ReadFile` of the same path returns `data`. -/
def Store.WriteFile (fs : Store) (path data : GoString) : Option LibError × Store :=
  match fs.writeErr path with
  | some e => (some e, { fs with written := (path, data) :: fs.written })
  | none =>
    (none,
      { fs with
        ReadFile := fun p => if p = path then (data, none) else fs.ReadFile p
        written := (path, data) :: fs.written })

/-- The call `filepath.Join(elem...)`: the non-empty elements separated by a
slash.  The library also passes the result through `Clean`; a `Store` is
consulted after that normalisation. -/
def filepathJoin (elem : List GoString) : GoString :=
  [ '/'].intercalate (elem.filter fun e => e ≠ [])

/-- The fragment of `fmt.Sprintf` the sources use: string operands, the verb
`%s` and the escape `%%`.  A format with any other verb, with too few or with
too many operands is outside the fragment (`none`). -/
def Sprintf : GoString → List GoString → Option GoString
  | [], [] => some []
  | [], _ :: _ => none
  | '%' :: 's' :: rest, a :: args => (Sprintf rest args).map fun r => a ++ r
  | '%' :: '%' :: rest, args => (Sprintf rest args).map fun r => '%' :: r
  | '%' :: _, _ => none
  | c :: rest, args => (Sprintf rest args).map fun r => c :: r

/-- Decimal rendering of an `int`, as `fmt.Sprint` and `%d` print it. -/
def itoa : Int → GoString
  | .ofNat n => Nat.toDigits 10 n
  | .negSucc n => '-' :: Nat.toDigits 10 (n + 1)

/-- The function `chomp` of `ev3dev.go`.  The source indexes `b[len(b)-1]`
before any length check, so the empty slice raises an index-out-of-range
panic (`none`). -/
def chomp (b : GoString) : Option GoString :=
  match b.getLast? with
  | none => none
  | some c => if c = '\n' then some (b.take (b.length - 1)) else some b

/-! ## Motor state -/

def motorStateTable : List (GoString × MotorState) :=
  [(running, Running), (ramping, Ramping), (holding, Holding),
    (overloaded, Overloaded), (stalled, Stalled)]

/-- The function `keys` of `ev3dev.go`: the keys of the map, sorted by
`sort.Strings`.  The keys of a map are distinct, so the sorted slice does not
depend on the iteration order or on the sorting algorithm. -/
def keys (states : List (GoString × MotorState)) : List GoString :=
  (states.map Prod.fst).insertionSort fun a b => a ≤ b

def motorStates : List GoString := [running, ramping, holding, overloaded, stalled]

/-- The loop of `stateFrom` over the tokens of `strings.Split(data, " ")`. -/
def stateFrom.loop (d : DevInfo) : List GoString → MotorState → MotorState × Option Error
  | [], stat => (stat, none)
  | s :: rest, stat =>
    match motorStateTable.lookup s with
    | none =>
      (0, some (newInvalidValueError d state "unrecognized motor state".toList s
        (keys motorStateTable)))
    | some bit => stateFrom.loop d rest (stat ||| bit)

/-- The function `stateFrom` of `ev3dev.go`. -/
def stateFrom (d : DevInfo) (data _attr : GoString) (err : Option Error) :
    MotorState × Option Error :=
  match err with
  | some e => (0, some e)
  | none =>
    if data = [] then (0, none)
    else stateFrom.loop d (data.splitOn ' ') 0

/-- The function `motorState` of `ev3dev.go`, on the result `(b[:n], err)` of
`f.ReadAt(b[:], 0)` with the 4096 byte buffer.  The argument `chomp(b[:n])` is
evaluated before `stateFrom` looks at `err`. -/
def motorState (d : DevInfo) (read : GoString × Option LibError) :
    Option (MotorState × Option Error) :=
  let n := read.1.length
  if n = 4096 ∧ read.2 = none then some (0, some .bufferFull)
  else
    let err := if read.2 = some .eof then none else read.2
    (chomp read.1).map fun data => stateFrom d data [] (err.map Error.lib)

/-- The call `append(b, s...)` on a byte slice that may be nil (`none`):
appending no byte returns the slice as it is. -/
def appendBytes (b : Option GoString) (s : GoString) : Option GoString :=
  if s = [] then b else some (b.getD [] ++ s)

/-- The loop of `MotorState.String` over `motorStates`, from index `i`, with
the bytes `b` collected so far. -/
def MotorState.String.loop (f : MotorState) :
    List GoString → Nat → Option GoString → Option GoString
  | [], _, b => b
  | s :: rest, i, b =>
    if f &&& (1 <<< i) ≠ 0 then
      let b := if (b.getD []).length ≠ 0 then appendBytes b [ '|'] else b
      MotorState.String.loop f rest (i + 1) (appendBytes b s)
    else MotorState.String.loop f rest (i + 1) b

/-- The method `MotorState.String` of `ev3dev.go`. -/
def MotorState.String (f : MotorState) : GoString :=
  match MotorState.String.loop f motorStates 0 none with
  | none => "none".toList
  | some b => b

/-! ## Device handles and attribute reads -/

/-- A device handle as the functions of `ev3dev.go` see it through the
interface `Device`: what `Path`, `Type` and `String` return, and the error
state. -/
structure Device where
  info : DevInfo
  err : Option Error
  deriving DecidableEq, Repr

/-- Modelled from the spec: the implementations of the interface method `Err`
are not in the source files; the interface documents it as "Err returns and
clears the error state of the Device", the spec as `take_error`, which clears
the latch.  The result is the error returned and the handle afterwards. -/
def Device.Err (d : Device) : Option Error × Device :=
  (d.err, { d with err := none })

/-- The function `attributeOf` of `ev3dev.go`.  The result is the handle after
the call, the data, the attribute name and the error. -/
def attributeOf (fs : Store) (d : Device) (attr : GoString) :
    Option (Device × GoString × GoString × Option Error) :=
  let (err, d) := d.Err
  match err with
  | some e => some (d, [], [], some e)
  | none =>
    let path := filepathJoin [d.info.path, d.info.name, attr]
    let (b, err) := fs.ReadFile path
    match err with
    | some e => some (d, [], [], some (newAttrOpError d.info attr b "read".toList e))
    | none => (chomp b).map fun data => (d, data, attr, none)

/-! ## Lego ports -/

/-- The struct `LegoPort` of `lego_port.go`, without its mutex. -/
structure LegoPort where
  id : Int
  deriving DecidableEq, Repr

/-- The method `String`: `fmt.Sprint(portPrefix, p.id)`. -/
def LegoPort.String (p : LegoPort) : GoString := portPrefix ++ itoa p.id

/-- The method `writeFile`; the lock it takes has no effect on a single
caller. -/
def LegoPort.writeFile (_p : LegoPort) (fs : Store) (path data : GoString) :
    Option LibError × Store :=
  fs.WriteFile path data

/-- The method `Mode` of `lego_port.go`. -/
def LegoPort.Mode (p : LegoPort) (fs : Store) : Option (GoString × Option Error) :=
  (Sprintf (LegoPortPath ++ "/%s/".toList ++ mode) [p.String]).bind fun path =>
    let (b, err) := fs.ReadFile path
    match err with
    | some e => some ([], some (.errorf "ev3dev: failed to read port mode: %v".toList [.err e]))
    | none => (chomp b).map fun s => (s, none)

/-- The method `SetMode` of `lego_port.go`.  As in the source the parameter is
called `mode`, so inside the body the name `mode` is the argument and no
longer the attribute name `"mode"`. -/
def LegoPort.SetMode (p : LegoPort) (fs : Store) (mode : GoString) :
    Option (Option Error × Store) :=
  (Sprintf (LegoPortPath ++ "/%s/".toList ++ mode) [p.String]).map fun path =>
    let (err, fs) := p.writeFile fs path mode
    match err with
    | some e => (some (.errorf "ev3dev: failed to set port mode: %v".toList [.err e]), fs)
    | none => (none, fs)

/-- The method `SetDevice` of `lego_port.go`. -/
def LegoPort.SetDevice (p : LegoPort) (fs : Store) (dev : GoString) :
    Option (Option Error × Store) :=
  (Sprintf (LegoPortPath ++ "/%s/".toList ++ setDevice) [p.String]).map fun path =>
    let (err, fs) := p.writeFile fs path dev
    match err with
    | some e => (some (.errorf "ev3dev: failed to set port device: %v".toList [.err e]), fs)
    | none => (none, fs)

/-! ## Discovery -/

/-- The struct `idDevice` of `ev3dev.go`. -/
structure idDevice where
  id : Int
  name : GoString
  deriving DecidableEq, Repr

/-- Value of a string of decimal digits, continuing from `n`; `none` when a
byte is not a digit. -/
def digitsValue : List Char → Nat → Option Nat
  | [], n => some n
  | c :: cs, n =>
    if '0' ≤ c ∧ c ≤ '9' then digitsValue cs (n * 10 + (c.toNat - '0'.toNat)) else none

/-- The library call `strconv.Atoi`: an optional sign, then at least one
decimal digit and nothing else, and a value that fits an `int` of `intSize`
bits. -/
def Atoi (intSize : Nat) (s : GoString) : Except LibError Int :=
  let (neg, digits) : Bool × GoString :=
    match s with
    | '-' :: r => (true, r)
    | '+' :: r => (false, r)
    | r => (false, r)
  if digits = [] then .error (.numError s)
  else
    match digitsValue digits 0 with
    | none => .error (.numError s)
    | some n =>
      if neg then
        if n ≤ 2 ^ (intSize - 1) then .ok (-(n : Int)) else .error (.numError s)
      else if n < 2 ^ (intSize - 1) then .ok (n : Int) else .error (.numError s)

/-- The method `byID.Less`. -/
def byID.Less (a b : idDevice) : Bool := a.id < b.id

/-- The library call `sort.Sort(byID(devices))`.  The library promises a
permutation that is ascending for `Less` and does not promise stability; any
function with these two properties can stand for it. -/
structure Sorter where
  sort : List idDevice → List idDevice
  perm : ∀ l, (sort l).Perm l
  sorted : ∀ l, (sort l).Pairwise fun a b => byID.Less b a = false

/-- Insertion sort, one implementation of `sort.Sort`. -/
def insertionSorter : Sorter where
  sort := List.insertionSort fun a b => a.id ≤ b.id
  perm := List.perm_insertionSort _
  sorted := fun l => by
    have h := @List.sorted_insertionSort idDevice (fun a b => a.id ≤ b.id) _
      ⟨fun a b => le_total a.id b.id⟩ ⟨fun a b c hab hbc => le_trans hab hbc⟩ l
    refine List.Pairwise.imp ?_ h
    intro a b hab
    simpa [byID.Less] using hab

/-- The loop of `sortedDevices` over the directory names. -/
def sortedDevices.loop (intSize : Nat) (pfx : GoString) :
    List GoString → List idDevice → Except Error (List idDevice)
  | [], devices => .ok devices
  | n :: names, devices =>
    if !pfx.isPrefixOf n then sortedDevices.loop intSize pfx names devices
    else
      match Atoi intSize (n.drop pfx.length) with
      | .error e =>
        .error (.errorf "ev3dev: could not parse id from device name %q: %v".toList
          [.str n, .err e])
      | .ok id => sortedDevices.loop intSize pfx names (devices ++ [⟨id, n⟩])

/-- The function `sortedDevices` of `ev3dev.go`. -/
def sortedDevices (S : Sorter) (intSize : Nat) (names : List GoString) (pfx : GoString) :
    Except Error (List idDevice) :=
  (sortedDevices.loop intSize pfx names []).map S.sort

/-- The function `devicesIn` of `ev3dev.go`. -/
def devicesIn (fs : Store) (path : GoString) : List GoString × Option LibError :=
  fs.Readdirnames path

/-- The statements of `deviceIDFor` after its loop. -/
def deviceIDFor.notFound (port driver : GoString) (d : DevInfo) (after : Int) : Int × Option Error :=
  if port ≠ [] then
    (-1, some (.errorf "ev3dev: could not find device for driver %q on port %s".toList
      [.str driver, .str port]))
  else if after < 0 then
    (-1, some (.errorf "ev3dev: could not find device for driver %q".toList [.str driver]))
  else
    (-1, some (.errorf "ev3dev: could find device with driver name %q after %s%d".toList
      [.str driver, .str d.typ, .int after]))

/-- The loop of `deviceIDFor` over the sorted devices, followed by the
statements after the loop. -/
def deviceIDFor.scan (fs : Store) (port driver : GoString) (d : DevInfo) (after : Int) :
    List idDevice → Option (Int × Option Error)
  | [] => some (deviceIDFor.notFound port driver d after)
  | device :: devices =>
    if port = [] then
      if device.id ≤ after then deviceIDFor.scan fs port driver d after devices
      else
        let path := filepathJoin [d.path, device.name, driverName]
        let (b, err) := fs.ReadFile path
        match err with
        | some e =>
          if e.IsNotExist then deviceIDFor.scan fs port driver d after devices
          else
            some (-1, some (.errorf "ev3dev: could not read driver name %s: %v".toList
              [.str path, .err e]))
        | none =>
          match chomp b with
          | none => none
          | some c =>
            if driver ≠ c then deviceIDFor.scan fs port driver d after devices
            else some (device.id, none)
    else
      let path := filepathJoin [d.path, device.name, address]
      let (b, err) := fs.ReadFile path
      match err with
      | some e =>
        some (-1, some (.errorf "ev3dev: could not read address %s: %v".toList
          [.str path, .err e]))
      | none =>
        match chomp b with
        | none => none
        | some c =>
          if port ≠ c then deviceIDFor.scan fs port driver d after devices
          else
            let path := filepathJoin [d.path, device.name, driverName]
            let (b, err) := fs.ReadFile path
            match err with
            | some e =>
              some (-1, some (.errorf "ev3dev: could not read driver name %s: %v".toList
                [.str path, .err e]))
            | none =>
              match chomp b with
              | none => none
              | some c =>
                if driver ≠ c then some (device.id, some (.driverMismatch driver c))
                else some (device.id, none)

/-- The function `deviceIDFor` of `ev3dev.go`. -/
def deviceIDFor (S : Sorter) (intSize : Nat) (fs : Store) (port driver : GoString)
    (d : DevInfo) (after : Int) : Option (Int × Option Error) :=
  let (devNames, err) := devicesIn fs d.path
  match err with
  | some e =>
    some (-1, some (.errorf "ev3dev: could not get devices for %s: %v".toList
      [.str d.path, .err e]))
  | none =>
    match sortedDevices S intSize devNames d.typ with
    | .error e => some (-1, some e)
    | .ok devices => deviceIDFor.scan fs port driver d after devices

/-! ## Attribute writes and key-value records -/

/-- The function `setAttributeOf` of `ev3dev.go`: the error returned and the
store afterwards.  The body makes no call of `d.Err`. -/
def setAttributeOf (fs : Store) (d : Device) (attr data : GoString) : Option Error × Store :=
  let path := filepathJoin [d.info.path, d.info.name, attr]
  let (err, fs) := fs.WriteFile path data
  match err with
  | some e => (some (newAttrOpError d.info attr data "set".toList e), fs)
  | none => (none, fs)

/-- The loop of `ueventFrom` over the lines.  The Go map is an association list
read with `List.lookup`: the assignment `uevent[k] = v` puts the pair in front,
where it hides an older pair with the same key. -/
def ueventFrom.loop (d : DevInfo) (attr : GoString) :
    List GoString → List (GoString × GoString) →
      Option (List (GoString × GoString)) × Option Error
  | [], uevent => (some uevent, none)
  | l :: rest, uevent =>
    match l.splitOn '=' with
    | [k, v] => ueventFrom.loop d attr rest ((k, v) :: uevent)
    | _ => (none, some (newParseError d attr (.syntaxError l)))

/-- The function `ueventFrom` of `ev3dev.go`; `none` is the nil map. -/
def ueventFrom (d : DevInfo) (data attr : GoString) (err : Option Error) :
    Option (List (GoString × GoString)) × Option Error :=
  match err with
  | some e => (none, some e)
  | none =>
    if data.length = 0 then (none, none)
    else ueventFrom.loop d attr (data.splitOn '\n') []

/-! ## Finding a device after another -/

/-- A value of the interface `Device` handed to `FindAfter`: the name of its
concrete type (`reflect.TypeOf`), whether that type implements `idSetter`, what
`Path` and `Type` return, the id and the error state. -/
structure Handle where
  goType : GoString
  isIDSetter : Bool
  path : GoString
  typ : GoString
  id : Int
  err : Option Error
  deriving DecidableEq, Repr

/-- Modelled from the spec: the concrete device types are not in the source
files; the spec gives `instance_name` as "class prefix + id".  This is what
`Path`, `Type` and `String` return for the handle. -/
def Handle.DevInfo (h : Handle) : DevInfo := ⟨h.path, h.typ, h.typ ++ itoa h.id⟩

/-- Modelled from the spec: the implementations of `idInt` are not in the
source files; the interface documents "idInt returns the id integer value of
the device". -/
def Handle.idInt (h : Handle) : Int := h.id

/-- Modelled from the spec: the implementations of `setID` are not in the
source files; the interface documents "setID sets the device id to the given id
and clears the error field". -/
def Handle.setID (h : Handle) (id : Int) : Handle := { h with id := id, err := none }

/-- The function `FindAfter` of `ev3dev.go`: the error returned and `dst`
afterwards.  `d = none` is the nil interface; the type assertion
`d.(idSetter)` panics on a type without the two methods. -/
def FindAfter (S : Sorter) (intSize : Nat) (fs : Store) (d : Option Handle) (dst : Handle)
    (driver : GoString) : Option (Option Error × Handle) :=
  if !dst.isIDSetter then
    some (some (.errorf "ev3dev: device type %T not supported".toList [.typ dst.goType]), dst)
  else
    let after : Option (Except Error Int) :=
      match d with
      | none => some (.ok (-1))
      | some d =>
        if d.goType ≠ dst.goType then
          some (.error (.errorf "ev3dev: device types do not match %T != %T".toList
            [.typ d.goType, .typ dst.goType]))
        else if d.isIDSetter then some (.ok d.idInt)
        else none
    match after with
    | none => none
    | some (.error e) => some (some e, dst)
    | some (.ok after) =>
      match deviceIDFor S intSize fs [] driver dst.DevInfo after with
      | none => none
      | some (_, some err) => some (some err, dst)
      | some (id, none) => some (none, dst.setID id)

/-! ## Waiting for a motor state -/

/-- An operation `Wait` performs on its environment. -/
inductive Event where
  /-- The call `os.Open(path)`. -/
  | openFile (path : GoString)
  /-- The call `f.ReadAt(b[:], 0)` of `motorState`. -/
  | read
  /-- The call `f.ReadAt([]byte{0}, 0)` before the loop; the source discards
  its result. -/
  | readByte
  /-- The call `time.Now()`. -/
  | now
  /-- The call `unix.Poll(fds, ms)` and the count it returned. -/
  | poll (ms n : Int)
  /-- The call `time.Sleep(d)`. -/
  | sleep (d : Int)
  deriving DecidableEq, Repr

/-- The environment of one call of `Wait`.  `Open` gives the error of
`os.Open`, `ReadAt k` the result of the read number `k` of the state file (the
bytes read and the error), `Now k` the reading number `k` of the clock in
nanoseconds, `Poll k ms` the result of call number `k` of `unix.Poll` with the
timeout `ms`; `canPoll` is the package variable.  Times and durations are
integers without a bound, and `int` has 64 bits, so that the conversion of the
poll timeout changes nothing. -/
structure Env where
  canPoll : Bool
  Open : GoString → Option LibError
  ReadAt : Nat → GoString × Option LibError
  Now : Nat → Int
  Poll : Nat → Int → Int × Option LibError

/-- How far a call of `Wait` has got: the number of clock readings, of state
reads and of polls, and the operations performed, latest first. -/
structure WaitState where
  nows : Nat
  reads : Nat
  polls : Nat
  trace : List Event
  deriving DecidableEq, Repr

/-- What `Wait` returns, with the handle and the state of the call at the
return. -/
structure WaitResult where
  stat : MotorState
  ok : Bool
  err : Option Error
  dev : Device
  st : WaitState
  deriving DecidableEq, Repr

/-- The course of a call that may loop: it returns, it panics, or the loop is
still running when the count of iterations allowed is used up. -/
inductive Run (α : Type) where
  | done (a : α)
  | panic
  | unfinished
  deriving DecidableEq, Repr

/-- The constant `time.Millisecond`, in nanoseconds. -/
def Millisecond : Int := 1000000

def WaitState.now (st : WaitState) (env : Env) : Int × WaitState :=
  (env.Now st.nows, { st with nows := st.nows + 1, trace := .now :: st.trace })

def WaitState.read (st : WaitState) (env : Env) : (GoString × Option LibError) × WaitState :=
  (env.ReadAt st.reads, { st with reads := st.reads + 1, trace := .read :: st.trace })

def WaitState.log (st : WaitState) (e : Event) : WaitState :=
  { st with trace := e :: st.trace }

/-- The loop condition `timeout < 0 || time.Since(end) < 0`; the clock is read
only when the first test fails. -/
def Wait.cond (env : Env) (timeout end_ : Int) (st : WaitState) : Bool × WaitState :=
  if timeout < 0 then (true, st)
  else
    let (t, st) := st.now env
    (decide (t - end_ < 0), st)

/-- The block `if canPoll { ... }` in the loop of `Wait`: the state afterwards
and, when `unix.Poll` returned 0, the error the function returns with. -/
def Wait.poll (env : Env) (timeout end_ : Int) (st : WaitState) :
    WaitState × Option (Option LibError) :=
  if env.canPoll then
    let (tmo, st) : Int × WaitState :=
      if timeout ≥ 0 then
        let (t, st) := st.now env
        let remain := end_ - t
        (if remain < timeout then remain else timeout, st)
      else (timeout, st)
    let ms := tmo.tdiv Millisecond
    let (n, err) := env.Poll st.polls ms
    let st := { st with polls := st.polls + 1, trace := .poll ms n :: st.trace }
    if n = 0 then (st, some err) else (st, none)
  else (st, none)

/-- The statements at the end of the loop body: the length of the pause, and
the sleep. -/
def Wait.relax (env : Env) (end_ : Int) (st : WaitState) : WaitState :=
  let (t, st) := st.now env
  let remain := end_ - t
  let relax := if remain < 50 * Millisecond then remain.tdiv 2 else 50 * Millisecond
  st.log (.sleep relax)

/-- The loop of `Wait`, for at most `fuel` runs of the body, from the status
`stat` read last. -/
def Wait.loop (env : Env) (d : Device) (mask want not : MotorState) (any : Bool)
    (timeout end_ : Int) : Nat → WaitState → MotorState → Run WaitResult
  | 0, st, stat =>
    let (go, st) := Wait.cond env timeout end_ st
    if go then .unfinished else .done ⟨stat, false, none, d, st⟩
  | fuel + 1, st, stat =>
    let (go, st) := Wait.cond env timeout end_ st
    if go then
      match Wait.poll env timeout end_ st with
      | (st, some err) => .done ⟨0, false, err.map Error.lib, d, st⟩
      | (st, none) =>
        let (r, st) := st.read env
        match motorState d.info r with
        | none => .panic
        | some (stat, some e) => .done ⟨stat, false, some e, d, st⟩
        | some (stat, none) =>
          if stateIsOK stat mask want not any then .done ⟨stat, true, none, d, st⟩
          else Wait.loop env d mask want not any timeout end_ fuel (Wait.relax env end_ st) stat
    else .done ⟨stat, false, none, d, st⟩

/-- The function `Wait` of `ev3dev.go`, with at most `fuel` runs of the loop
body. -/
def Wait (env : Env) (d : Device) (mask want not : MotorState) (any : Bool)
    (timeout : Int) (fuel : Nat) : Run WaitResult :=
  let (err, d) := d.Err
  let st : WaitState := ⟨0, 0, 0, []⟩
  match err with
  | some e => .done ⟨0, false, some e, d, st⟩
  | none =>
    let path := filepathJoin [d.info.path, d.info.name, state]
    let st := st.log (.openFile path)
    match env.Open path with
    | some e => .done ⟨0, false, some (.lib e), d, st⟩
    | none =>
      let (r, st) := st.read env
      match motorState d.info r with
      | none => .panic
      | some (stat, some e) => .done ⟨stat, false, some e, d, st⟩
      | some (stat, none) =>
        if stateIsOK stat mask want not any then .done ⟨stat, true, none, d, st⟩
        else
          let st := if env.canPoll then st.log .readByte else st
          let (t, st) := st.now env
          Wait.loop env d mask want not any timeout (t + timeout) fuel st stat

/-! ## Vocabulary for stating the discovery theorems -/

/-- The id of a directory entry: defined when the name carries the class
prefix and `strconv.Atoi` accepts the rest of the name. -/
def idOf (intSize : Nat) (pfx n : GoString) : Option Int :=
  if pfx.isPrefixOf n then (Atoi intSize (n.drop pfx.length)).toOption else none

/-- The value of an attribute of the entry `name`: the content of the file with
one trailing newline stripped, defined when the read succeeds and returns at
least one byte. -/
def attrValue (fs : Store) (d : DevInfo) (name attr : GoString) : Option GoString :=
  match fs.ReadFile (filepathJoin [d.path, name, attr]) with
  | (b, none) => chomp b
  | (_, some _) => none

/-- Whether the last operation of the call was a `unix.Poll` that returned
0, that is, a poll that ran into its timeout. -/
def WaitState.lastPollTimedOut (st : WaitState) : Bool :=
  match st.trace with
  | .poll _ 0 :: _ => true
  | _ => false

/-- The path of the state attribute `Wait` opens. -/
def statePath (d : Device) : GoString := filepathJoin [d.info.path, d.info.name, state]

/-- The text of an error built by `fmt.Errorf`, for the verbs of the not-found
messages: `%s` and `%q` with a string operand, `%d` with an int.  The function
`quote` stands for the quoting of `%q` (`strconv.Quote`).  Other verbs and a
wrong number of operands are outside the fragment (`none`). -/
def render (quote : GoString → GoString) : GoString → List Arg → Option GoString
  | [], [] => some []
  | [], _ :: _ => none
  | '%' :: 's' :: rest, .str a :: args => (render quote rest args).map fun r => a ++ r
  | '%' :: 'q' :: rest, .str a :: args => (render quote rest args).map fun r => quote a ++ r
  | '%' :: 'd' :: rest, .int i :: args => (render quote rest args).map fun r => itoa i ++ r
  | '%' :: _, _ => none
  | c :: rest, args => (render quote rest args).map fun r => c :: r

/-- Whether every byte of the string is a decimal digit. -/
def allDigits (s : GoString) : Bool := s.all fun c => decide ('0' ≤ c ∧ c ≤ '9')

/-- Whether the string is an optional sign followed by at least one decimal
digit and nothing else. -/
def isSignedDecimal (s : GoString) : Bool :=
  match s with
  | '-' :: r => decide (r ≠ []) && allDigits r
  | '+' :: r => decide (r ≠ []) && allDigits r
  | r => decide (r ≠ []) && allDigits r

/-- The integer value of a string of decimal digits. -/
def decimalValue (s : GoString) : Nat :=
  s.foldl (fun n c => n * 10 + (c.toNat - '0'.toNat)) 0

/-- The part of a line before its first `=` and the part after it. -/
def pairOf (l : GoString) : GoString × GoString :=
  (l.takeWhile fun c => c != '=', (l.dropWhile fun c => c != '=').drop 1)

/-! ## Concrete handles and stores for the examples -/

/-- A tacho motor handle with no device bound. -/
def exampleMotor : DevInfo := ⟨TachoMotorPath, motorPrefix, "motor-1".toList⟩

/-- A store with nothing in it: every read and every listing fails with "not
exist", every write succeeds. -/
def emptyStore : Store where
  ReadFile := fun _ => ([], some .notExist)
  Readdirnames := fun _ => ([], some .notExist)
  writeErr := fun _ => none
  written := []

/-- A store in which the mode attribute of port 0 reads `other`. -/
def portStore : Store :=
  { emptyStore with
    ReadFile := fun p =>
      if p = "/sys/class/lego-port/port0/mode".toList then ("other\n".toList, none)
      else ([], some .notExist) }

def lMotor : GoString := "lego-ev3-l-motor".toList
def mMotor : GoString := "lego-ev3-m-motor".toList

/-- The class directory holds motor10, motor2 and motor0, in this order; all
three are large motors, on the ports outC, outB and outA. -/
def motorStore : Store :=
  { emptyStore with
    Readdirnames := fun p =>
      if p = TachoMotorPath then (["motor10".toList, "motor2".toList, "motor0".toList], none)
      else ([], some .notExist)
    ReadFile := fun p =>
      if p = "/sys/class/tacho-motor/motor0/driver_name".toList then ("lego-ev3-l-motor\n".toList, none)
      else if p = "/sys/class/tacho-motor/motor2/driver_name".toList then ("lego-ev3-l-motor\n".toList, none)
      else if p = "/sys/class/tacho-motor/motor10/driver_name".toList then ("lego-ev3-l-motor\n".toList, none)
      else if p = "/sys/class/tacho-motor/motor0/address".toList then ("outA\n".toList, none)
      else if p = "/sys/class/tacho-motor/motor2/address".toList then ("outB\n".toList, none)
      else if p = "/sys/class/tacho-motor/motor10/address".toList then ("outC\n".toList, none)
      else ([], some .notExist) }

/-- The class directory holds motor0 and motorX; the driver name of both is
readable and is the large motor. -/
def badNameStore : Store :=
  { emptyStore with
    Readdirnames := fun p =>
      if p = TachoMotorPath then (["motor0".toList, "motorX".toList], none)
      else ([], some .notExist)
    ReadFile := fun p =>
      if p = "/sys/class/tacho-motor/motor0/driver_name".toList then ("lego-ev3-l-motor\n".toList, none)
      else if p = "/sys/class/tacho-motor/motorX/driver_name".toList then ("lego-ev3-l-motor\n".toList, none)
      else ([], some .notExist) }

/-- The class directory holds motor0 and motor1; the address file of motor0 is
gone, motor1 is a large motor on port outB. -/
def vanishedStore : Store :=
  { emptyStore with
    Readdirnames := fun p =>
      if p = TachoMotorPath then (["motor0".toList, "motor1".toList], none)
      else ([], some .notExist)
    ReadFile := fun p =>
      if p = "/sys/class/tacho-motor/motor1/address".toList then ("outB\n".toList, none)
      else if p = "/sys/class/tacho-motor/motor1/driver_name".toList then ("lego-ev3-l-motor\n".toList, none)
      else ([], some .notExist) }

/-- A motor handle bound to motor0, with an empty latch. -/
def motor0 : Device := ⟨⟨TachoMotorPath, motorPrefix, "motor0".toList⟩, none⟩

/-- The same handle with "buffer full" in its latch. -/
def motor0Latched : Device := { motor0 with err := some .bufferFull }

/-- An environment in which the state file opens, every read returns
"running", the clock advances 30 ms from one reading to the next, and a poll
returns one ready descriptor when it may block without limit and none
otherwise. -/
def runningEnv (canPoll : Bool) : Env where
  canPoll := canPoll
  Open := fun _ => none
  ReadAt := fun _ => ("running\n".toList, some .eof)
  Now := fun k => 30 * Millisecond * k
  Poll := fun _ ms => if ms < 0 then (1, none) else (0, none)

/-- The environment `runningEnv true` with every poll failing: `unix.Poll`
returns -1 and the error number 4 (interrupted call). -/
def interruptedEnv : Env :=
  { runningEnv true with Poll := fun _ _ => (-1, some (.os 4)) }

/-- The environment `runningEnv true` with a state file that does not exist. -/
def missingEnv : Env :=
  { runningEnv true with Open := fun _ => some .notExist }

/-- The environment `runningEnv true` with a device that reports "flying". -/
def flyingEnv : Env :=
  { runningEnv true with ReadAt := fun _ => ("flying\n".toList, some .eof) }

/-- A large tacho motor handle that is not bound to a device. -/
def unboundMotor : Handle :=
  ⟨"*ev3dev.TachoMotor".toList, true, TachoMotorPath, motorPrefix, -1, none⟩

/-- A sensor handle bound to sensor0. -/
def sensor0 : Handle :=
  ⟨"*ev3dev.Sensor".toList, true, "/sys/class/lego-sensor".toList, sensorPrefix, 0, none⟩

/-! ## The Wait predicate -/

/-- Claim C1: with `any = false` the predicate holds exactly when
`(status AND mask) XOR not` equals `want OR not`; at status `running`, mask
`running|holding`, want `running` and `not = 0` it holds. -/
theorem stateIsOK_all_iff (stat mask want not : MotorState) :
    (stateIsOK stat mask want not false = true ↔
        (stat &&& mask) ^^^ not = want ||| not) ∧
      stateIsOK Running (Running ||| Holding) Running 0 false = true := by
  refine ⟨?_, by decide⟩
  simp [stateIsOK]

/-- Claim C2: with `any = true` the predicate holds exactly when
`(status AND mask) XOR not` is non-zero and `(status AND mask) AND not` is
zero, and `want` has no influence on the result. -/
theorem stateIsOK_any_iff (stat mask want not : MotorState) :
    (stateIsOK stat mask want not true = true ↔
        (stat &&& mask) ^^^ not ≠ 0 ∧ (stat &&& mask) &&& not = 0) ∧
      ∀ want2 : MotorState,
        stateIsOK stat mask want2 not true = stateIsOK stat mask want not true := by
  refine ⟨?_, fun _ => rfl⟩
  simp [stateIsOK]

/-- Claim C3 as stated fails: with status 0 and `not = stalled` the predicate
with `any = true` succeeds although no bit of `status AND mask` is set. -/
theorem stateIsOK_any_no_bit_set :
    stateIsOK 0 (Running ||| Holding) Running Stalled true = true ∧
      ¬ ∃ i, (0 &&& (Running ||| Holding)).testBit i = true ∧ Stalled.testBit i = false := by
  refine ⟨by decide, ?_⟩
  rintro ⟨i, hi, -⟩
  simp at hi

/-- Claim C3, amended: when the predicate with `any = true` succeeds, none of
the bits of `not` is present in `status AND mask`, and either some bit of
`status AND mask` is set, outside `not`, or `status AND mask` is zero and
`not` is non-zero. -/
theorem stateIsOK_any_bits (stat mask want not : MotorState)
    (h : stateIsOK stat mask want not true = true) :
    (∀ i, not.testBit i = true → (stat &&& mask).testBit i = false) ∧
      ((∃ i, (stat &&& mask).testBit i = true ∧ not.testBit i = false) ∨
        (stat &&& mask = 0 ∧ not ≠ 0)) := by
  have h2 : (stat &&& mask) ^^^ not ≠ 0 ∧ (stat &&& mask) &&& not = 0 := by
    simpa [stateIsOK] using h
  obtain ⟨hx, hn⟩ := h2
  have hbits : ∀ i, not.testBit i = true → (stat &&& mask).testBit i = false := by
    intro i hi
    have h0 : ((stat &&& mask) &&& not).testBit i = false := by rw [hn]; simp
    rw [Nat.testBit_and, hi, Bool.and_true] at h0
    exact h0
  refine ⟨hbits, ?_⟩
  by_cases hz : stat &&& mask = 0
  · right
    refine ⟨hz, ?_⟩
    intro hnot
    apply hx
    rw [hz, hnot]
    rfl
  · left
    obtain ⟨i, hi⟩ := Nat.ne_zero_implies_bit_true hz
    refine ⟨i, hi, ?_⟩
    cases hb : not.testBit i
    · rfl
    · rw [hbits i hb] at hi
      exact absurd hi (by simp)

/-- The amended claim C3 at status `running`, mask `running|holding` and
`not = stalled`. -/
theorem stateIsOK_any_bits_witness :
    stateIsOK Running (Running ||| Holding) 0 Stalled true = true ∧
      ((∀ i, Stalled.testBit i = true →
          (Running &&& (Running ||| Holding)).testBit i = false) ∧
        ((∃ i, (Running &&& (Running ||| Holding)).testBit i = true ∧
            Stalled.testBit i = false) ∨
          (Running &&& (Running ||| Holding) = 0 ∧ Stalled ≠ 0))) :=
  ⟨by decide, stateIsOK_any_bits Running (Running ||| Holding) 0 Stalled (by decide)⟩

/-! ## Decoding the motor state -/

/-- The decode table sends a tag of the vocabulary to its own bit and nothing
else to a bit. -/
theorem lookup_motorStateTable (t : GoString) :
    (t ∈ motorStates → ∃ k, k < 5 ∧ motorStateTable.lookup t = some (1 <<< k)) ∧
      (t ∉ motorStates → motorStateTable.lookup t = none) := by
  constructor
  · intro ht
    simp only [motorStates, List.mem_cons, List.mem_singleton, List.not_mem_nil, or_false] at ht
    rcases ht with h | h | h | h | h
    · exact ⟨0, by decide, by subst h; decide⟩
    · exact ⟨1, by decide, by subst h; decide⟩
    · exact ⟨2, by decide, by subst h; decide⟩
    · exact ⟨3, by decide, by subst h; decide⟩
    · exact ⟨4, by decide, by subst h; decide⟩
  · intro ht
    simp only [motorStates, List.mem_cons, List.mem_singleton, List.not_mem_nil, or_false,
      not_or] at ht
    obtain ⟨h0, h1, h2, h3, h4⟩ := ht
    have e0 : (t == running) = false := by simpa using h0
    have e1 : (t == ramping) = false := by simpa using h1
    have e2 : (t == holding) = false := by simpa using h2
    have e3 : (t == overloaded) = false := by simpa using h3
    have e4 : (t == stalled) = false := by simpa using h4
    simp only [motorStateTable, List.lookup, e0, e1, e2, e3, e4]

/-- No tag of the vocabulary contains a space. -/
theorem space_not_mem_of_mem_motorStates (t : GoString) (ht : t ∈ motorStates) :
    ' ' ∉ t := by
  simp only [motorStates, List.mem_cons, List.mem_singleton, List.not_mem_nil, or_false] at ht
  rcases ht with h | h | h | h | h <;> subst h <;> decide

/-- The loop of `stateFrom` over known tags ends without error, with the bits
it started from and the bits of the tags. -/
theorem stateFrom_loop_known (d : DevInfo) :
    ∀ (tags : List GoString) (acc : MotorState), (∀ t ∈ tags, t ∈ motorStates) →
      ∃ stat, stateFrom.loop d tags acc = (stat, none) ∧
        ∀ i, stat.testBit i = true ↔
          (acc.testBit i = true ∨ ∃ t ∈ tags, motorStateTable.lookup t = some (1 <<< i)) := by
  intro tags
  induction tags with
  | nil =>
    intro acc _
    exact ⟨acc, rfl, fun i => by simp⟩
  | cons t rest ih =>
    intro acc h
    obtain ⟨k, -, hk⟩ := (lookup_motorStateTable t).1 (h t (List.mem_cons_self _ _))
    obtain ⟨stat, hstat, hbits⟩ :=
      ih (acc ||| 1 <<< k) (fun u hu => h u (List.mem_cons_of_mem _ hu))
    refine ⟨stat, ?_, ?_⟩
    · simp only [stateFrom.loop, hk]
      exact hstat
    · intro i
      rw [hbits i, Nat.testBit_or, Bool.or_eq_true, Nat.one_shiftLeft, Nat.testBit_two_pow]
      constructor
      · rintro ((ha | hki) | ⟨u, hu, hl⟩)
        · exact Or.inl ha
        · have hki2 : k = i := by simpa using hki
          exact Or.inr ⟨t, List.mem_cons_self _ _, by rw [hk, hki2]⟩
        · exact Or.inr ⟨u, List.mem_cons_of_mem _ hu, hl⟩
      · rintro (ha | ⟨u, hu, hl⟩)
        · exact Or.inl (Or.inl ha)
        · rcases List.mem_cons.1 hu with rfl | hu2
          · left; right
            rw [hk] at hl
            have h2 : (1 : Nat) <<< k = 1 <<< i := Option.some.inj hl
            rw [Nat.one_shiftLeft, Nat.one_shiftLeft] at h2
            have hki : k = i := Nat.pow_right_injective (le_refl 2) h2
            simp [hki]
          · exact Or.inr ⟨u, hu2, hl⟩

/-- Claim C4: on the empty text and on every single-space-separated list of
tags of the vocabulary `stateFrom` succeeds; bit `i` of the mask is set
exactly when a tag with the bit `1 << i` occurs (running 1, ramping 2,
holding 4, overloaded 8, stalled 16), the empty text gives 0 and
"running holding" gives `Running|Holding`. -/
theorem stateFrom_known_tags (d : DevInfo) (attr : GoString) (tags : List GoString)
    (h : ∀ t ∈ tags, t ∈ motorStates) :
    (∃ stat, stateFrom d ([ ' '].intercalate tags) attr none = (stat, none) ∧
        (∀ i, stat.testBit i = true ↔
          ∃ t ∈ tags, motorStateTable.lookup t = some (1 <<< i)) ∧
        (tags = [] → stat = 0)) ∧
      motorStateTable = [(running, 1), (ramping, 2), (holding, 4), (overloaded, 8),
        (stalled, 16)] ∧
      stateFrom d "running holding".toList attr none = (Running ||| Holding, none) := by
  refine ⟨?_, by decide, rfl⟩
  by_cases hnil : tags = []
  · subst hnil
    refine ⟨0, by simp [stateFrom, List.intercalate], ?_, fun _ => rfl⟩
    intro i
    simp
  · have hsplit : ([ ' '].intercalate tags).splitOn ' ' = tags :=
      List.splitOn_intercalate tags ' ' (fun l hl => space_not_mem_of_mem_motorStates l (h l hl)) hnil
    obtain ⟨stat, hstat, hbits⟩ := stateFrom_loop_known d tags 0 h
    by_cases hdata : [ ' '].intercalate tags = []
    · rw [hdata] at hsplit
      have h1 : tags = [[]] := by simpa using hsplit.symm
      have h2 := h [] (by rw [h1]; exact List.mem_singleton_self _)
      exact absurd h2 (by decide)
    · refine ⟨stat, ?_, ?_, fun h0 => absurd h0 hnil⟩
      · simp only [stateFrom, hdata, if_false, hsplit]
        exact hstat
      · intro i
        rw [hbits i]
        simp

/-- Claim C4 at the tags running, holding. -/
theorem stateFrom_known_tags_witness :
    (∃ stat, stateFrom exampleMotor ([ ' '].intercalate [running, holding]) state none
          = (stat, none) ∧
        (∀ i, stat.testBit i = true ↔
          ∃ t ∈ [running, holding], motorStateTable.lookup t = some (1 <<< i)) ∧
        ([running, holding] = [] → stat = 0)) ∧
      motorStateTable = [(running, 1), (ramping, 2), (holding, 4), (overloaded, 8),
        (stalled, 16)] ∧
      stateFrom exampleMotor "running holding".toList state none
        = (Running ||| Holding, none) :=
  stateFrom_known_tags exampleMotor state [running, holding] (by decide)

/-- The loop of `stateFrom` stops at the first token outside the vocabulary. -/
theorem stateFrom_loop_unknown (d : DevInfo) :
    ∀ (tokens : List GoString) (acc : MotorState), (∃ t ∈ tokens, t ∉ motorStates) →
      ∃ pre s post, tokens = pre ++ s :: post ∧ (∀ t ∈ pre, t ∈ motorStates) ∧
        s ∉ motorStates ∧
        stateFrom.loop d tokens acc =
          (0, some (.invalidValue d state "unrecognized motor state".toList s
            [holding, overloaded, ramping, running, stalled])) := by
  intro tokens
  induction tokens with
  | nil =>
    rintro acc ⟨t, ht, -⟩
    exact absurd ht (List.not_mem_nil t)
  | cons t rest ih =>
    intro acc hex
    by_cases ht : t ∈ motorStates
    · obtain ⟨k, -, hk⟩ := (lookup_motorStateTable t).1 ht
      have hex2 : ∃ u ∈ rest, u ∉ motorStates := by
        obtain ⟨u, hu, hun⟩ := hex
        rcases List.mem_cons.1 hu with rfl | hu2
        · exact absurd ht hun
        · exact ⟨u, hu2, hun⟩
      obtain ⟨pre, s, post, hsplit, hpre, hs, hres⟩ := ih (acc ||| 1 <<< k) hex2
      refine ⟨t :: pre, s, post, by rw [hsplit]; rfl, ?_, hs, ?_⟩
      · intro u hu
        rcases List.mem_cons.1 hu with rfl | hu2
        · exact ht
        · exact hpre u hu2
      · simp only [stateFrom.loop, hk]
        exact hres
    · have hnone := (lookup_motorStateTable t).2 ht
      refine ⟨[], t, rest, rfl, fun u hu => absurd hu (List.not_mem_nil u), ht, ?_⟩
      have hkeys : keys motorStateTable = [holding, overloaded, ramping, running, stalled] := by
        decide
      simp only [stateFrom.loop, hnone, newInvalidValueError, hkeys]

/-- Claim C5: on a non-empty text with a token outside the vocabulary
`stateFrom` returns mask 0 and the invalid-value error carrying the first such
token and the sorted vocabulary; "flying" fails naming "flying". -/
theorem stateFrom_unknown_tag (d : DevInfo) (data attr : GoString) (hne : data ≠ [])
    (h : ∃ t ∈ data.splitOn ' ', t ∉ motorStates) :
    (∃ pre s post, data.splitOn ' ' = pre ++ s :: post ∧ (∀ t ∈ pre, t ∈ motorStates) ∧
        s ∉ motorStates ∧
        stateFrom d data attr none =
          (0, some (.invalidValue d state "unrecognized motor state".toList s
            [holding, overloaded, ramping, running, stalled]))) ∧
      stateFrom d "flying".toList attr none =
        (0, some (.invalidValue d state "unrecognized motor state".toList "flying".toList
          [holding, overloaded, ramping, running, stalled])) := by
  refine ⟨?_, rfl⟩
  obtain ⟨pre, s, post, hsplit, hpre, hs, hres⟩ := stateFrom_loop_unknown d (data.splitOn ' ') 0 h
  refine ⟨pre, s, post, hsplit, hpre, hs, ?_⟩
  simp only [stateFrom, hne, if_false]
  exact hres

/-- Claim C5 at the text "running flying stalled". -/
theorem stateFrom_unknown_tag_witness :
    (∃ pre s post, "running flying stalled".toList.splitOn ' ' = pre ++ s :: post ∧
        (∀ t ∈ pre, t ∈ motorStates) ∧ s ∉ motorStates ∧
        stateFrom exampleMotor "running flying stalled".toList state none =
          (0, some (.invalidValue exampleMotor state "unrecognized motor state".toList s
            [holding, overloaded, ramping, running, stalled]))) ∧
      stateFrom exampleMotor "flying".toList state none =
        (0, some (.invalidValue exampleMotor state "unrecognized motor state".toList
          "flying".toList [holding, overloaded, ramping, running, stalled])) :=
  stateFrom_unknown_tag exampleMotor "running flying stalled".toList state (by decide)
    ⟨"flying".toList, by decide, by decide⟩

/-! ## Reading attributes -/

/-- On a non-empty slice `chomp` returns: the slice without its last byte when
that byte is a newline, the slice itself otherwise. -/
theorem chomp_of_ne_nil (b : GoString) (hb : b ≠ []) :
    chomp b = some (if b.getLast? = some '\n' then b.dropLast else b) := by
  cases hl : b.getLast? with
  | none => exact absurd (List.getLast?_eq_none_iff.1 hl) hb
  | some c =>
    by_cases hc : c = '\n'
    · simp [chomp, hl, hc, List.dropLast_eq_take]
    · simp [chomp, hl, hc]

/-- Claim C9 at the empty byte sequence: `chomp` indexes the last byte of an
empty slice and panics, and so does `motorState` on an attribute read that
returned no bytes, instead of decoding the zero mask; on "a" followed by two
newlines `chomp` keeps one newline, and the content of one newline decodes to
the zero mask. -/
theorem chomp_empty_panics :
    chomp [] = none ∧
      motorState exampleMotor ([], some .eof) = none ∧
      chomp "a\n\n".toList = some "a\n".toList ∧
      motorState exampleMotor ("\n".toList, some .eof) = some (0, none) := by
  decide

/-- Claim C10 as stated fails: after `attributeOf` on a handle whose latch
holds "buffer full" the latch is empty. -/
theorem attributeOf_latched_clears :
    attributeOf emptyStore ⟨exampleMotor, some .bufferFull⟩ state =
        some (⟨exampleMotor, none⟩, [], [], some .bufferFull) ∧
      (attributeOf emptyStore ⟨exampleMotor, some .bufferFull⟩ state).map
        (fun r => r.1.err) ≠ some (some .bufferFull) := by
  decide

/-- Claim C10, amended: on a handle whose latch holds `e`, `attributeOf`
returns `e` with empty data whatever the store holds, and the latch is empty
afterwards. -/
theorem attributeOf_latched (fs : Store) (d : Device) (attr : GoString) (e : Error)
    (h : d.err = some e) :
    attributeOf fs d attr = some ({ d with err := none }, [], [], some e) ∧
      ∀ fs2 : Store, attributeOf fs2 d attr = attributeOf fs d attr := by
  have key : ∀ fs1 : Store,
      attributeOf fs1 d attr = some ({ d with err := none }, [], [], some e) := by
    intro fs1
    simp [attributeOf, Device.Err, h]
  exact ⟨key fs, fun fs2 => by rw [key fs2, key fs]⟩

/-- The amended claim C10 on a motor handle whose latch holds "buffer full". -/
theorem attributeOf_latched_witness :
    attributeOf portStore ⟨exampleMotor, some .bufferFull⟩ state =
        some (⟨exampleMotor, none⟩, [], [], some .bufferFull) ∧
      ∀ fs2 : Store, attributeOf fs2 ⟨exampleMotor, some .bufferFull⟩ state =
        attributeOf portStore ⟨exampleMotor, some .bufferFull⟩ state :=
  attributeOf_latched portStore ⟨exampleMotor, some .bufferFull⟩ state .bufferFull rfl

/-! ## Lego ports -/

/-- Claim C8 at port 0 and mode "auto": `SetMode` returns nil after one write,
to the file `port0/auto`; the file `port0/mode` keeps its content and `Mode`
still returns "other".  `SetDevice` on the same port writes to
`port0/set_device`. -/
theorem SetMode_writes_file_named_by_argument :
    ((LegoPort.mk 0).SetMode portStore "auto".toList).map
        (fun r => (r.1, r.2.written, (LegoPort.mk 0).Mode r.2)) =
        some (none, [("/sys/class/lego-port/port0/auto".toList, "auto".toList)],
          some ("other".toList, none)) ∧
      ((LegoPort.mk 0).SetDevice portStore "auto".toList).map (fun r => (r.1, r.2.written)) =
        some (none, [("/sys/class/lego-port/port0/set_device".toList, "auto".toList)]) := by
  constructor <;> rfl

/-! ## Discovery -/

/-- When every prefixed name has a suffix that `Atoi` accepts, the loop of
`sortedDevices` appends one entry per prefixed name, in directory order. -/
theorem sortedDevices_loop_ok (w : Nat) (pfx : GoString) :
    ∀ (names : List GoString) (acc : List idDevice),
      (∀ m ∈ names, pfx.isPrefixOf m = true →
        (Atoi w (m.drop pfx.length)).toOption.isSome = true) →
      sortedDevices.loop w pfx names acc =
        .ok (acc ++ names.filterMap fun m => (idOf w pfx m).map fun i => ⟨i, m⟩) := by
  intro names
  induction names with
  | nil =>
    intro acc _
    simp [sortedDevices.loop]
  | cons n names ih =>
    intro acc h
    have hrest : ∀ m ∈ names, pfx.isPrefixOf m = true →
        (Atoi w (m.drop pfx.length)).toOption.isSome = true :=
      fun m hm => h m (List.mem_cons_of_mem _ hm)
    by_cases hp : pfx.isPrefixOf n = true
    · have hn := h n (List.mem_cons_self _ _) hp
      cases ha : Atoi w (n.drop pfx.length) with
      | error e =>
        rw [ha] at hn
        simp [Except.toOption] at hn
      | ok i =>
        have hid : idOf w pfx n = some i := by simp [idOf, hp, ha, Except.toOption]
        rw [sortedDevices.loop]
        simp only [hp, Bool.not_true, ha, Bool.false_eq_true, if_false]
        rw [ih _ hrest, List.filterMap_cons, hid]
        simp
    · have hid : idOf w pfx n = none := by simp [idOf, hp]
      rw [sortedDevices.loop]
      simp only [hp, Bool.not_false, if_true]
      rw [ih _ hrest, List.filterMap_cons, hid]
      simp [hp]

/-- The devices `sortedDevices` returns, when every prefixed name parses: the
sorted list of the prefixed entries with their ids. -/
theorem sortedDevices_ok (S : Sorter) (w : Nat) (names : List GoString) (pfx : GoString)
    (h : ∀ m ∈ names, pfx.isPrefixOf m = true →
      (Atoi w (m.drop pfx.length)).toOption.isSome = true) :
    sortedDevices S w names pfx =
      .ok (S.sort (names.filterMap fun m => (idOf w pfx m).map fun i => ⟨i, m⟩)) := by
  rw [sortedDevices, sortedDevices_loop_ok w pfx names [] h]
  rfl

/-- An entry is among the collected devices exactly when its name is listed
and its id is the id of that name. -/
theorem mem_collected (S : Sorter) (w : Nat) (names : List GoString) (pfx : GoString)
    (x : idDevice) :
    x ∈ S.sort (names.filterMap fun m => (idOf w pfx m).map fun i => ⟨i, m⟩) ↔
      x.name ∈ names ∧ idOf w pfx x.name = some x.id := by
  rw [(S.perm _).mem_iff, List.mem_filterMap]
  constructor
  · rintro ⟨m, hm, hx⟩
    cases hid : idOf w pfx m with
    | none => rw [hid] at hx; simp at hx
    | some i =>
      rw [hid] at hx
      simp only [Option.map_some', Option.some.injEq] at hx
      subst hx
      exact ⟨hm, hid⟩
  · rintro ⟨hm, hid⟩
    exact ⟨x.name, hm, by rw [hid]; rfl⟩

/-- What `attrValue` being defined says about the read. -/
theorem attrValue_eq_some (fs : Store) (d : DevInfo) (name attr c : GoString)
    (h : attrValue fs d name attr = some c) :
    ∃ b, fs.ReadFile (filepathJoin [d.path, name, attr]) = (b, none) ∧ chomp b = some c := by
  unfold attrValue at h
  rcases hrf : fs.ReadFile (filepathJoin [d.path, name, attr]) with ⟨b, err⟩
  rw [hrf] at h
  cases err with
  | none => exact ⟨b, rfl, h⟩
  | some e => simp at h

/-- Find-after over a sorted list: the scan returns the least qualifying id. -/
theorem scan_find_after (fs : Store) (driver : GoString) (d : DevInfo) (after : Int) :
    ∀ l : List idDevice, l.Pairwise (fun a b => byID.Less b a = false) →
      (∀ y ∈ l, after < y.id → (attrValue fs d y.name driverName).isSome = true) →
      ∀ x ∈ l, after < x.id → attrValue fs d x.name driverName = some driver →
        (∀ y ∈ l, after < y.id → attrValue fs d y.name driverName = some driver →
          x.id ≤ y.id) →
        deviceIDFor.scan fs [] driver d after l = some (x.id, none) := by
  intro l
  induction l with
  | nil =>
    intro _ _ x hx
    exact absurd hx (List.not_mem_nil x)
  | cons h t ih =>
    intro hs hread x hx hax hdx hmin
    obtain ⟨hht, hst⟩ := List.pairwise_cons.1 hs
    have hread2 : ∀ y ∈ t, after < y.id → (attrValue fs d y.name driverName).isSome = true :=
      fun y hy => hread y (List.mem_cons_of_mem _ hy)
    have hmin2 : ∀ y ∈ t, after < y.id → attrValue fs d y.name driverName = some driver →
        x.id ≤ y.id := fun y hy => hmin y (List.mem_cons_of_mem _ hy)
    rw [deviceIDFor.scan]
    simp only [if_true]
    by_cases hle : h.id ≤ after
    · have hxt : x ∈ t := by
        rcases List.mem_cons.1 hx with rfl | hxt
        · exact absurd hle (not_le.2 hax)
        · exact hxt
      simp only [hle, if_true]
      exact ih hst hread2 x hxt hax hdx hmin2
    · have hlt : after < h.id := not_le.1 hle
      have hsome := hread h (List.mem_cons_self _ _) hlt
      obtain ⟨c, hc⟩ := Option.isSome_iff_exists.1 hsome
      obtain ⟨b, hrf, hch⟩ := attrValue_eq_some fs d h.name driverName c hc
      simp only [hle, if_false, hrf, hch]
      by_cases hd : driver = c
      · subst hd
        simp only [ne_eq, not_true_eq_false, if_false]
        have h1 : x.id ≤ h.id := hmin h (List.mem_cons_self _ _) hlt hc
        have h2 : h.id ≤ x.id := by
          rcases List.mem_cons.1 hx with rfl | hxt
          · exact le_refl _
          · have := hht x hxt
            simpa [byID.Less] using this
        rw [le_antisymm h1 h2]
      · have hxt : x ∈ t := by
          rcases List.mem_cons.1 hx with rfl | hxt
          · rw [hdx] at hc
            exact absurd (Option.some.inj hc) hd
          · exact hxt
        simp only [ne_eq, hd, not_false_eq_true, if_true]
        exact ih hst hread2 x hxt hax hdx hmin2

/-- Claim C6 as stated fails: over the listing motor0, motorX, with both driver
names readable and equal to the requested one, the call returns -1 and the
parse error for motorX, not the id 0. -/
theorem deviceIDFor_bad_name :
    attrValue badNameStore exampleMotor "motor0".toList driverName = some lMotor ∧
      attrValue badNameStore exampleMotor "motorX".toList driverName = some lMotor ∧
      deviceIDFor insertionSorter 64 badNameStore [] lMotor exampleMotor (-1) =
        some (-1, some (.errorf "ev3dev: could not parse id from device name %q: %v".toList
          [.str "motorX".toList, .err (.numError "X".toList)])) := by
  decide

/-- Claim C6, amended: find-after over a listing in which every name with the
class prefix has a suffix that `Atoi` accepts, and every such entry with an id
above `after` has a readable, non-empty driver-name file.  If the entry `n`
with id `i > after` has the requested driver name and `i` is least among the
ids above `after` of the entries with that driver name, the call returns
`(i, nil)`. -/
theorem deviceIDFor_find_after (S : Sorter) (w : Nat) (fs : Store) (driver : GoString)
    (d : DevInfo) (after : Int) (names : List GoString) (n : GoString) (i : Int)
    (hdir : devicesIn fs d.path = (names, none))
    (hparse : ∀ m ∈ names, d.typ.isPrefixOf m = true →
      (Atoi w (m.drop d.typ.length)).toOption.isSome = true)
    (hread : ∀ m ∈ names, ∀ j ∈ idOf w d.typ m, after < j →
      (attrValue fs d m driverName).isSome = true)
    (hn : n ∈ names) (hi : idOf w d.typ n = some i) (hafter : after < i)
    (hdrv : attrValue fs d n driverName = some driver)
    (hmin : ∀ m ∈ names, ∀ j ∈ idOf w d.typ m, after < j →
      attrValue fs d m driverName = some driver → i ≤ j) :
    deviceIDFor S w fs [] driver d after = some (i, none) := by
  have hscan := scan_find_after fs driver d after
    (S.sort (names.filterMap fun m => (idOf w d.typ m).map fun i => ⟨i, m⟩)) (S.sorted _)
    (fun y hy hay =>
      hread y.name ((mem_collected S w names d.typ y).1 hy).1 y.id
        ((mem_collected S w names d.typ y).1 hy).2 hay)
    ⟨i, n⟩ ((mem_collected S w names d.typ ⟨i, n⟩).2 ⟨hn, hi⟩) hafter hdrv
    (fun y hy hay hdy =>
      hmin y.name ((mem_collected S w names d.typ y).1 hy).1 y.id
        ((mem_collected S w names d.typ y).1 hy).2 hay hdy)
  simp only [deviceIDFor, hdir, sortedDevices_ok S w names d.typ hparse]
  exact hscan

/-- The amended claim C6 over motor10, motor2, motor0, all with the requested
driver: after -1 the call returns 0, after 0 it returns 2, after 2 it returns
10. -/
theorem deviceIDFor_find_after_witness :
    deviceIDFor insertionSorter 64 motorStore [] lMotor exampleMotor (-1) = some (0, none) ∧
      deviceIDFor insertionSorter 64 motorStore [] lMotor exampleMotor 0 = some (2, none) ∧
      deviceIDFor insertionSorter 64 motorStore [] lMotor exampleMotor 2 = some (10, none) :=
  ⟨deviceIDFor_find_after insertionSorter 64 motorStore lMotor exampleMotor (-1)
      ["motor10".toList, "motor2".toList, "motor0".toList] "motor0".toList 0
      (by decide) (by decide) (by decide) (by decide) (by decide) (by decide) (by decide)
      (by decide),
    deviceIDFor_find_after insertionSorter 64 motorStore lMotor exampleMotor 0
      ["motor10".toList, "motor2".toList, "motor0".toList] "motor2".toList 2
      (by decide) (by decide) (by decide) (by decide) (by decide) (by decide) (by decide)
      (by decide),
    deviceIDFor_find_after insertionSorter 64 motorStore lMotor exampleMotor 2
      ["motor10".toList, "motor2".toList, "motor0".toList] "motor10".toList 10
      (by decide) (by decide) (by decide) (by decide) (by decide) (by decide) (by decide)
      (by decide)⟩

/-- Bind-by-port over a sorted list: the scan stops at the entry on the port
when every other entry up to its id has a readable address elsewhere. -/
theorem scan_bind_port (fs : Store) (port driver : GoString) (d : DevInfo) (after : Int)
    (hport : port ≠ []) (hav : GoString) :
    ∀ l : List idDevice, l.Pairwise (fun a b => byID.Less b a = false) →
      ∀ x ∈ l, attrValue fs d x.name address = some port →
        attrValue fs d x.name driverName = some hav →
        (∀ y ∈ l, y.name = x.name → y.id = x.id) →
        (∀ y ∈ l, y.name ≠ x.name → y.id ≤ x.id →
          (attrValue fs d y.name address).isSome = true ∧
            attrValue fs d y.name address ≠ some port) →
        deviceIDFor.scan fs port driver d after l =
          some (x.id, if driver = hav then none else some (.driverMismatch driver hav)) := by
  intro l
  induction l with
  | nil =>
    intro _ x hx
    exact absurd hx (List.not_mem_nil x)
  | cons h t ih =>
    intro hs x hx haddr hdrv hsame hlow
    obtain ⟨hht, hst⟩ := List.pairwise_cons.1 hs
    rw [deviceIDFor.scan]
    simp only [hport, if_false]
    by_cases hname : h.name = x.name
    · obtain ⟨b, hrf, hch⟩ := attrValue_eq_some fs d x.name address port haddr
      obtain ⟨b2, hrf2, hch2⟩ := attrValue_eq_some fs d x.name driverName hav hdrv
      have hid : h.id = x.id := hsame h (List.mem_cons_self _ _) hname
      simp only [hname, hrf, hch, hrf2, hch2, ne_eq, not_true_eq_false, if_false, hid]
      by_cases hd : driver = hav
      · simp [hd]
      · simp [hd]
    · have hxt : x ∈ t := by
        rcases List.mem_cons.1 hx with rfl | hxt
        · exact absurd rfl hname
        · exact hxt
      have hle : h.id ≤ x.id := by
        have := hht x hxt
        simpa [byID.Less] using this
      obtain ⟨hsome, hne⟩ := hlow h (List.mem_cons_self _ _) hname hle
      obtain ⟨c, hc⟩ := Option.isSome_iff_exists.1 hsome
      obtain ⟨b, hrf, hch⟩ := attrValue_eq_some fs d h.name address c hc
      have hpc : port ≠ c := by
        intro hpc
        apply hne
        rw [hc, hpc]
      simp only [hrf, hch, ne_eq, hpc, not_false_eq_true, if_true]
      exact ih hst x hxt haddr hdrv (fun y hy => hsame y (List.mem_cons_of_mem _ hy))
        (fun y hy => hlow y (List.mem_cons_of_mem _ hy))

/-- Claim C7 as stated fails: motor1 is the only device whose address equals
the port outB and its driver differs from the requested one, but the address
file of motor0 is gone and the call returns -1 with the read error, not the
id 1 with a driver mismatch. -/
theorem deviceIDFor_port_lower_unreadable :
    attrValue vanishedStore exampleMotor "motor0".toList address = none ∧
      attrValue vanishedStore exampleMotor "motor1".toList address = some "outB".toList ∧
      attrValue vanishedStore exampleMotor "motor1".toList driverName = some lMotor ∧
      deviceIDFor insertionSorter 64 vanishedStore "outB".toList mMotor exampleMotor (-1) =
        some (-1, some (.errorf "ev3dev: could not read address %s: %v".toList
          [.str "/sys/class/tacho-motor/motor0/address".toList, .err .notExist])) := by
  decide

/-- Claim C7, amended: bind-by-port over a listing in which every name with
the class prefix has a suffix that `Atoi` accepts.  Let the entry `n` with id
`i` have the address `port` and the driver name `hav`, both files readable and
non-empty, and let every other entry with an id up to `i` have a readable,
non-empty address file with another content.  Then the call returns `i`, with
`DriverMismatch{Want: driver, Have: hav}` when `hav` differs from the
requested driver and with a nil error when it is equal. -/
theorem deviceIDFor_bind_port (S : Sorter) (w : Nat) (fs : Store) (port driver : GoString)
    (d : DevInfo) (after : Int) (names : List GoString) (n : GoString) (i : Int)
    (hav : GoString) (hport : port ≠ [])
    (hdir : devicesIn fs d.path = (names, none))
    (hparse : ∀ m ∈ names, d.typ.isPrefixOf m = true →
      (Atoi w (m.drop d.typ.length)).toOption.isSome = true)
    (hn : n ∈ names) (hi : idOf w d.typ n = some i)
    (haddr : attrValue fs d n address = some port)
    (hdrv : attrValue fs d n driverName = some hav)
    (hlow : ∀ m ∈ names, ∀ j ∈ idOf w d.typ m, m ≠ n → j ≤ i →
      (attrValue fs d m address).isSome = true ∧ attrValue fs d m address ≠ some port) :
    (driver ≠ hav → deviceIDFor S w fs port driver d after =
        some (i, some (.driverMismatch driver hav))) ∧
      (driver = hav → deviceIDFor S w fs port driver d after = some (i, none)) := by
  have hscan := scan_bind_port fs port driver d after hport hav
    (S.sort (names.filterMap fun m => (idOf w d.typ m).map fun i => ⟨i, m⟩)) (S.sorted _)
    ⟨i, n⟩ ((mem_collected S w names d.typ ⟨i, n⟩).2 ⟨hn, hi⟩) haddr hdrv
    (fun y hy hyn => by
      have h2 := ((mem_collected S w names d.typ y).1 hy).2
      rw [hyn] at h2
      exact Option.some.inj (h2.symm.trans hi))
    (fun y hy hyn hle =>
      hlow y.name ((mem_collected S w names d.typ y).1 hy).1 y.id
        ((mem_collected S w names d.typ y).1 hy).2 hyn hle)
  have hres : deviceIDFor S w fs port driver d after =
      some (i, if driver = hav then none else some (.driverMismatch driver hav)) := by
    simp only [deviceIDFor, hdir, sortedDevices_ok S w names d.typ hparse]
    exact hscan
  constructor
  · intro hd
    rw [hres, if_neg hd]
  · intro hd
    rw [hres, if_pos hd]

/-- The amended claim C7 over motor10, motor2, motor0: on port outB, where the
large motor motor2 sits, a request for the medium motor returns 2 with the
mismatch and a request for the large motor returns 2 with no error. -/
theorem deviceIDFor_bind_port_witness :
    deviceIDFor insertionSorter 64 motorStore "outB".toList mMotor exampleMotor (-1) =
        some (2, some (.driverMismatch mMotor lMotor)) ∧
      deviceIDFor insertionSorter 64 motorStore "outB".toList lMotor exampleMotor (-1) =
        some (2, none) :=
  ⟨(deviceIDFor_bind_port insertionSorter 64 motorStore "outB".toList mMotor exampleMotor (-1)
      ["motor10".toList, "motor2".toList, "motor0".toList] "motor2".toList 2 lMotor
      (by decide) (by decide) (by decide) (by decide) (by decide) (by decide) (by decide)
      (by decide)).1 (by decide),
    (deviceIDFor_bind_port insertionSorter 64 motorStore "outB".toList lMotor exampleMotor (-1)
      ["motor10".toList, "motor2".toList, "motor0".toList] "motor2".toList 2 lMotor
      (by decide) (by decide) (by decide) (by decide) (by decide) (by decide) (by decide)
      (by decide)).2 (by decide)⟩

/-! ## Writing attributes -/

/-- Claim C11 as stated fails: on a handle whose latch holds "buffer full",
`setAttributeOf` returns nil and the write has been issued. -/
theorem setAttributeOf_latched_writes :
    (setAttributeOf emptyStore motor0Latched "command".toList "run-forever".toList).1 = none ∧
      (setAttributeOf emptyStore motor0Latched "command".toList "run-forever".toList).2.written =
        [("/sys/class/tacho-motor/motor0/command".toList, "run-forever".toList)] := by
  constructor <;> rfl

/-- Claim C11, amended: `setAttributeOf` does not look at the latch.  Whatever
the latch holds it issues one write, of the given text with nothing appended,
to the attribute file; it returns nil when the write succeeds, and then the
file reads back as the text, and the wrapped write error otherwise. -/
theorem setAttributeOf_ignores_latch (fs : Store) (d : Device) (attr data : GoString) :
    (setAttributeOf fs d attr data).2.written =
        (filepathJoin [d.info.path, d.info.name, attr], data) :: fs.written ∧
      (setAttributeOf fs d attr data).1 =
        (fs.writeErr (filepathJoin [d.info.path, d.info.name, attr])).map
          (newAttrOpError d.info attr data "set".toList) ∧
      (fs.writeErr (filepathJoin [d.info.path, d.info.name, attr]) = none →
        (setAttributeOf fs d attr data).2.ReadFile
          (filepathJoin [d.info.path, d.info.name, attr]) = (data, none)) ∧
      ∀ e : Option Error,
        setAttributeOf fs { d with err := e } attr data = setAttributeOf fs d attr data := by
  refine ⟨?_, ?_, ?_, fun e => rfl⟩
  · cases h : fs.writeErr (filepathJoin [d.info.path, d.info.name, attr]) <;>
      simp [setAttributeOf, Store.WriteFile, h]
  · cases h : fs.writeErr (filepathJoin [d.info.path, d.info.name, attr]) <;>
      simp [setAttributeOf, Store.WriteFile, h]
  · intro h
    simp [setAttributeOf, Store.WriteFile, h]

/-! ## Waiting for a motor state -/

/-- A handle with an empty latch is what `Err` leaves behind. -/
theorem clear_eq_self (d : Device) (h : d.err = none) : ({ d with err := none } : Device) = d := by
  cases d
  simp only [Device.mk.injEq, true_and]
  exact h.symm

/-- The loop of `Wait` returns with the handle it was given. -/
theorem Wait_loop_dev (env : Env) (d : Device) (mask want not : MotorState) (any : Bool)
    (timeout end_ : Int) :
    ∀ (fuel : Nat) (st : WaitState) (stat : MotorState) (r : WaitResult),
      Wait.loop env d mask want not any timeout end_ fuel st stat = .done r → r.dev = d := by
  intro fuel
  induction fuel with
  | zero =>
    intro st stat r h
    simp only [Wait.loop] at h
    split at h
    · exact absurd h (by simp)
    · cases h
      rfl
  | succ fuel ih =>
    intro st stat r h
    simp only [Wait.loop] at h
    split at h
    · split at h
      · cases h
        rfl
      · split at h
        · exact absurd h (by simp)
        · cases h
          rfl
        · split at h
          · cases h
            rfl
          · exact ih _ _ r h
    · cases h
      rfl

/-- Claim C13 at the timeout of -1 ns: the timeout handed to `unix.Poll` is
`-1 / 1000000 = 0`, as for every negative timeout above -1 ms, the poll
returns 0 at once and `Wait` returns status 0, `ok = false` and a nil error
instead of waiting. -/
theorem Wait_negative_timeout_polls_zero :
    (-1 : Int).tdiv Millisecond = 0 ∧
      (∀ t : Int, -Millisecond < t → t < 0 → t.tdiv Millisecond = 0) ∧
      Wait (runningEnv true) motor0 (Running ||| Holding) Holding 0 false (-1) 5 =
        .done ⟨0, false, none, motor0,
          ⟨1, 1, 1, [.poll 0 0, .now, .readByte, .read,
            .openFile "/sys/class/tacho-motor/motor0/state".toList]⟩⟩ := by
  refine ⟨by decide, ?_, by decide⟩
  intro t h1 h2
  have h3 : (-t).tdiv Millisecond = 0 := Int.tdiv_eq_zero_of_lt (by omega) (by omega)
  have h4 : t.tdiv Millisecond = -((-t).tdiv Millisecond) := by
    rw [← Int.neg_tdiv, Int.neg_neg]
  rw [h4, h3]
  rfl

/-- Claim C14: when the latch is empty, the state file opens and the first read
decodes to a status for which the predicate holds, `Wait` returns that status
with `ok = true` and a nil error after the open and one read, with no clock
reading, no poll and no sleep, for every timeout. -/
theorem Wait_already_satisfied (env : Env) (d : Device) (mask want not : MotorState)
    (any : Bool) (timeout : Int) (fuel : Nat) (s : MotorState)
    (hlatch : d.err = none) (hopen : env.Open (statePath d) = none)
    (hread : motorState d.info (env.ReadAt 0) = some (s, none))
    (hok : stateIsOK s mask want not any = true) :
    Wait env d mask want not any timeout fuel =
      .done ⟨s, true, none, d, ⟨0, 1, 0, [.read, .openFile (statePath d)]⟩⟩ := by
  have hd := clear_eq_self d hlatch
  simp only [statePath] at hopen
  simp only [Wait, Device.Err, hlatch, hopen, WaitState.read, WaitState.log, hread, hok,
    if_true, statePath, hd]

/-- Claim C14 at `any = false`, mask `running|holding`, want `running` and
`not = 0` on a device that reports "running", for the timeouts 1 s, 0 and
-1 s. -/
theorem Wait_already_satisfied_witness :
    Wait (runningEnv true) motor0 (Running ||| Holding) Running 0 false 1000000000 0 =
        .done ⟨Running, true, none, motor0, ⟨0, 1, 0, [.read, .openFile (statePath motor0)]⟩⟩ ∧
      Wait (runningEnv true) motor0 (Running ||| Holding) Running 0 false 0 0 =
        .done ⟨Running, true, none, motor0, ⟨0, 1, 0, [.read, .openFile (statePath motor0)]⟩⟩ ∧
      Wait (runningEnv true) motor0 (Running ||| Holding) Running 0 false (-1000000000) 0 =
        .done ⟨Running, true, none, motor0, ⟨0, 1, 0, [.read, .openFile (statePath motor0)]⟩⟩ :=
  ⟨Wait_already_satisfied (runningEnv true) motor0 (Running ||| Holding) Running 0 false
      1000000000 0 Running rfl rfl (by decide) (by decide),
    Wait_already_satisfied (runningEnv true) motor0 (Running ||| Holding) Running 0 false
      0 0 Running rfl rfl (by decide) (by decide),
    Wait_already_satisfied (runningEnv true) motor0 (Running ||| Holding) Running 0 false
      (-1000000000) 0 Running rfl rfl (by decide) (by decide)⟩

/-- On a handle whose latch holds `e`, `Wait` returns `(0, false, e)` with no
operation on its environment and leaves the latch empty; and whenever `Wait`
returns, on any handle and any path, the handle is the one `Err` left behind,
with an empty latch. -/
theorem Wait_latched (env : Env) (d : Device) (mask want not : MotorState) (any : Bool)
    (timeout : Int) (fuel : Nat) (e : Error) (h : d.err = some e) :
    Wait env d mask want not any timeout fuel =
        .done ⟨0, false, some e, { d with err := none }, ⟨0, 0, 0, []⟩⟩ ∧
      ∀ (env2 : Env) (d2 : Device) (mask2 want2 not2 : MotorState) (any2 : Bool)
        (timeout2 : Int) (fuel2 : Nat) (r : WaitResult),
        Wait env2 d2 mask2 want2 not2 any2 timeout2 fuel2 = .done r →
          r.dev = { d2 with err := none } := by
  constructor
  · simp only [Wait, Device.Err, h]
  · intro env2 d2 mask2 want2 not2 any2 timeout2 fuel2 r hr
    simp only [Wait, Device.Err] at hr
    split at hr
    · cases hr
      rfl
    · split at hr
      · cases hr
        rfl
      · split at hr
        · exact absurd hr (by simp)
        · cases hr
          rfl
        · split at hr
          · cases hr
            rfl
          · exact Wait_loop_dev _ _ _ _ _ _ _ _ _ _ _ r hr

/-- The latched return on the motor handle whose latch holds "buffer full". -/
theorem Wait_latched_witness :
    Wait (runningEnv true) motor0Latched (Running ||| Holding) Running 0 false 1000000000 3 =
        .done ⟨0, false, some .bufferFull, motor0, ⟨0, 0, 0, []⟩⟩ ∧
      ∀ (env2 : Env) (d2 : Device) (mask2 want2 not2 : MotorState) (any2 : Bool)
        (timeout2 : Int) (fuel2 : Nat) (r : WaitResult),
        Wait env2 d2 mask2 want2 not2 any2 timeout2 fuel2 = .done r →
          r.dev = { d2 with err := none } :=
  Wait_latched (runningEnv true) motor0Latched (Running ||| Holding) Running 0 false
    1000000000 3 .bufferFull rfl

/-- The poll block reads the clock at most once and makes no state read; when it
ends the call, the last operation was a poll that returned 0. -/
theorem Wait_poll_spec (env : Env) (timeout end_ : Int) (st : WaitState) :
    st.nows ≤ (Wait.poll env timeout end_ st).1.nows ∧
      (Wait.poll env timeout end_ st).1.reads = st.reads ∧
      ∀ err, (Wait.poll env timeout end_ st).2 = some err →
        (Wait.poll env timeout end_ st).1.lastPollTimedOut = true ∧ env.canPoll = true ∧
          ∃ k ms, env.Poll k ms = (0, err) := by
  unfold Wait.poll
  by_cases hc : env.canPoll = true
  · simp only [hc, if_true, WaitState.now]
    split_ifs with h1 h2 h3 h4 h5
    all_goals simp only [Nat.le_add_right, le_refl, true_and, and_true, Option.some.injEq,
      WaitState.lastPollTimedOut, reduceCtorEq, false_implies, implies_true]
    all_goals intro err herr
    all_goals subst herr
    · rw [h3]; exact ⟨rfl, _, _, Prod.ext h3 rfl⟩
    · rw [h4]; exact ⟨rfl, _, _, Prod.ext h4 rfl⟩
    · rw [h5]; exact ⟨rfl, _, _, Prod.ext h5 rfl⟩
  · simp [hc]

/-- The pause at the end of the loop body reads the clock once. -/
theorem Wait_relax_spec (env : Env) (end_ : Int) (st : WaitState) :
    (Wait.relax env end_ st).nows = st.nows + 1 ∧ (Wait.relax env end_ st).reads = st.reads := by
  simp [Wait.relax, WaitState.now, WaitState.log]

/-- The loop of `Wait` with a non-negative timeout, reads that never satisfy the
predicate and a clock that reaches the deadline: it returns within the runs
the clock allows, unsatisfied and without error. -/
theorem Wait_loop_deadline (env : Env) (d : Device) (mask want not : MotorState) (any : Bool)
    (timeout end_ : Int) (K : Nat) (hT : 0 ≤ timeout)
    (hread : ∀ k, ∃ s, motorState d.info (env.ReadAt k) = some (s, none) ∧
      stateIsOK s mask want not any = false)
    (hpoll : ∀ k ms, (env.Poll k ms).1 = 0 → (env.Poll k ms).2 = none)
    (hmono : ∀ i j, i ≤ j → env.Now i ≤ env.Now j) (hK : end_ ≤ env.Now K) :
    ∀ (fuel : Nat) (st : WaitState) (stat : MotorState), K ≤ st.nows + fuel →
      motorState d.info (env.ReadAt (st.reads - 1)) = some (stat, none) →
      ∃ r, Wait.loop env d mask want not any timeout end_ fuel st stat = .done r ∧
        r.ok = false ∧ r.err = none ∧
        (r.st.lastPollTimedOut = true → r.stat = 0 ∧ env.canPoll = true) ∧
        (r.st.lastPollTimedOut = false →
          motorState d.info (env.ReadAt (r.st.reads - 1)) = some (r.stat, none)) := by
  have hcond : ∀ st : WaitState, Wait.cond env timeout end_ st =
      (decide (env.Now st.nows - end_ < 0), (st.now env).2) := by
    intro st
    simp [Wait.cond, not_lt.2 hT, WaitState.now]
  have hexit : ∀ (st : WaitState) (stat : MotorState),
      motorState d.info (env.ReadAt (st.reads - 1)) = some (stat, none) →
      ∃ r, Run.done (⟨stat, false, none, d, (st.now env).2⟩ : WaitResult) = .done r ∧
        r.ok = false ∧ r.err = none ∧
        (r.st.lastPollTimedOut = true → r.stat = 0 ∧ env.canPoll = true) ∧
        (r.st.lastPollTimedOut = false →
          motorState d.info (env.ReadAt (r.st.reads - 1)) = some (r.stat, none)) := by
    intro st stat hst
    refine ⟨_, rfl, rfl, rfl, ?_, fun _ => hst⟩
    intro h
    simp [WaitState.lastPollTimedOut, WaitState.now] at h
  intro fuel
  induction fuel with
  | zero =>
    intro st stat hk hst
    have hge : ¬ env.Now st.nows - end_ < 0 := by
      have := hmono K st.nows (by omega)
      omega
    simp only [Wait.loop, hcond, hge, decide_False, Bool.false_eq_true, if_false]
    exact hexit st stat hst
  | succ fuel ih =>
    intro st stat hk hst
    by_cases hgo : env.Now st.nows - end_ < 0
    · simp only [Wait.loop, hcond, hgo, decide_True, if_true]
      obtain ⟨hp1, hp2, hp3⟩ := Wait_poll_spec env timeout end_ (st.now env).2
      rcases hpo : Wait.poll env timeout end_ (st.now env).2 with ⟨st2, o⟩
      rw [hpo] at hp1 hp2 hp3
      cases o with
      | some err =>
        obtain ⟨h1, h2, k, ms, hkm⟩ := hp3 err rfl
        have herr : err = none := by
          have := hpoll k ms (by rw [hkm])
          rw [hkm] at this
          exact this
        subst herr
        refine ⟨_, rfl, rfl, rfl, fun _ => ⟨rfl, h2⟩, ?_⟩
        intro hf
        simp only at h1 hf
        rw [h1] at hf
        exact absurd hf (by simp)
      | none =>
        obtain ⟨s, hs, hnot⟩ := hread st2.reads
        simp only [WaitState.read, hs, hnot, Bool.false_eq_true, if_false]
        obtain ⟨hr1, hr2⟩ := Wait_relax_spec env end_
          { st2 with reads := st2.reads + 1, trace := .read :: st2.trace }
        apply ih
        · rw [hr1]
          simp only [WaitState.now] at hp1
          simp only at hp1 ⊢
          omega
        · rw [hr2]
          simpa using hs
    · simp only [Wait.loop, hcond, hgo, decide_False, Bool.false_eq_true, if_false]
      exact hexit st stat hst
/-- Up to the loop: with an empty latch, a file that opens and a first status
that does not satisfy the predicate, `Wait` enters its loop after one clock
reading. -/
theorem Wait_eq_loop (env : Env) (d : Device) (mask want not : MotorState) (any : Bool)
    (timeout : Int) (fuel : Nat) (s : MotorState)
    (hlatch : d.err = none) (hopen : env.Open (statePath d) = none)
    (hread : motorState d.info (env.ReadAt 0) = some (s, none))
    (hnot : stateIsOK s mask want not any = false) :
    Wait env d mask want not any timeout fuel =
      Wait.loop env d mask want not any timeout (env.Now 0 + timeout) fuel
        ⟨1, 1, 0, .now :: ((if env.canPoll then [Event.readByte] else []) ++
          [.read, .openFile (statePath d)])⟩ s := by
  have hd := clear_eq_self d hlatch
  simp only [statePath] at hopen
  cases hc : env.canPoll <;>
    simp [Wait, Device.Err, hlatch, hopen, WaitState.read, WaitState.log, hread, hnot,
      statePath, hd, hc, WaitState.now]

/-- Claim C12 as stated fails: with a timeout of 1 s on a device that reports
"running" while "holding" is wanted, the poll runs into its timeout and `Wait`
returns status 0, not the status `Running` that was read last. -/
theorem Wait_poll_timeout_returns_zero :
    Wait (runningEnv true) motor0 (Running ||| Holding) Holding 0 false 1000000000 5 =
        .done ⟨0, false, none, motor0,
          ⟨3, 1, 1, [.poll 940 0, .now, .now, .now, .readByte, .read,
            .openFile "/sys/class/tacho-motor/motor0/state".toList]⟩⟩ ∧
      motorState motor0.info ((runningEnv true).ReadAt 0) = some (Running, none) ∧
      Running ≠ 0 := by
  decide

/-- Claim C12, amended: with an empty latch, a state file that opens, a
non-negative timeout, reads that all decode to a status that does not satisfy
the predicate, polls that report no error when they return 0, and a monotone
clock whose reading `K` is at or after the deadline, `Wait` returns within `K`
runs of its loop, with `ok = false` and a nil error.  The status is 0 when
the call ended in a poll that returned 0, and the status read last otherwise;
with a zero timeout it is the status of the initial read. -/
theorem Wait_deadline (env : Env) (d : Device) (mask want not : MotorState) (any : Bool)
    (timeout : Int) (K fuel : Nat)
    (hlatch : d.err = none) (hopen : env.Open (statePath d) = none) (hT : 0 ≤ timeout)
    (hread : ∀ k, ∃ s, motorState d.info (env.ReadAt k) = some (s, none) ∧
      stateIsOK s mask want not any = false)
    (hpoll : ∀ k ms, (env.Poll k ms).1 = 0 → (env.Poll k ms).2 = none)
    (hmono : ∀ i j, i ≤ j → env.Now i ≤ env.Now j)
    (hK : env.Now 0 + timeout ≤ env.Now K) (hfuel : K ≤ fuel) :
    ∃ r, Wait env d mask want not any timeout fuel = .done r ∧
      r.ok = false ∧ r.err = none ∧
      (r.st.lastPollTimedOut = true → r.stat = 0 ∧ env.canPoll = true) ∧
      (r.st.lastPollTimedOut = false →
        motorState d.info (env.ReadAt (r.st.reads - 1)) = some (r.stat, none)) ∧
      (timeout = 0 → r.st.lastPollTimedOut = false ∧ r.st.reads = 1) := by
  obtain ⟨s, hs, hnot⟩ := hread 0
  rw [Wait_eq_loop env d mask want not any timeout fuel s hlatch hopen hs hnot]
  by_cases h0 : timeout = 0
  · subst h0
    have hge : ¬ env.Now 1 - (env.Now 0 + 0) < 0 := by
      have := hmono 0 1 (by omega)
      omega
    cases fuel with
    | zero =>
      simp only [Wait.loop, Wait.cond, lt_irrefl, if_false, WaitState.now, hge, decide_False,
        Bool.false_eq_true]
      exact ⟨_, rfl, rfl, rfl, fun h => by simp [WaitState.lastPollTimedOut] at h,
        fun _ => hs, fun _ => ⟨rfl, rfl⟩⟩
    | succ fuel =>
      simp only [Wait.loop, Wait.cond, lt_irrefl, if_false, WaitState.now, hge, decide_False,
        Bool.false_eq_true]
      exact ⟨_, rfl, rfl, rfl, fun h => by simp [WaitState.lastPollTimedOut] at h,
        fun _ => hs, fun _ => ⟨rfl, rfl⟩⟩
  · obtain ⟨r, h1, h2, h3, h4, h5⟩ :=
      Wait_loop_deadline env d mask want not any timeout (env.Now 0 + timeout) K hT hread hpoll
        hmono hK fuel
        ⟨1, 1, 0, .now :: ((if env.canPoll then [Event.readByte] else []) ++
          [.read, .openFile (statePath d)])⟩ s (by simp only; omega) hs
    exact ⟨r, h1, h2, h3, h4, h5, fun h => absurd h h0⟩

/-- The amended claim C12 without polling: a timeout of 100 ms on a device that
reports "running" while "holding" is wanted, with a clock that advances 30 ms
per reading. -/
theorem Wait_deadline_witness :
    ∃ r, Wait (runningEnv false) motor0 (Running ||| Holding) Holding 0 false 100000000 4 =
        .done r ∧
      r.ok = false ∧ r.err = none ∧
      (r.st.lastPollTimedOut = true → r.stat = 0 ∧ (runningEnv false).canPoll = true) ∧
      (r.st.lastPollTimedOut = false →
        motorState motor0.info ((runningEnv false).ReadAt (r.st.reads - 1)) =
          some (r.stat, none)) ∧
      ((100000000 : Int) = 0 → r.st.lastPollTimedOut = false ∧ r.st.reads = 1) :=
  Wait_deadline (runningEnv false) motor0 (Running ||| Holding) Holding 0 false 100000000 4 4
    rfl rfl (by decide) (fun _ => ⟨Running, rfl, by decide⟩)
    (fun k ms h => by
      simp only [runningEnv] at h ⊢
      split_ifs at h ⊢ with hms
      · exact absurd h (by decide)
      · rfl)
    (fun i j hij => by
      simp only [runningEnv, Millisecond]
      omega)
    (by decide) (le_refl 4)

/-! ## Not-found reports of discovery -/

/-- A scan in which no entry qualifies ends in the statements after the loop:
in find-after mode every entry above the cursor has vanished or has a readable
driver name other than the requested one, in bind-by-port mode every entry has
a readable address other than the port. -/
theorem scan_not_found (fs : Store) (port driver : GoString) (d : DevInfo) (after : Int) :
    ∀ l : List idDevice,
      (port = [] → ∀ y ∈ l, after < y.id →
        (fs.ReadFile (filepathJoin [d.path, y.name, driverName])).2 = some .notExist ∨
          ((attrValue fs d y.name driverName).isSome = true ∧
            attrValue fs d y.name driverName ≠ some driver)) →
      (port ≠ [] → ∀ y ∈ l, (attrValue fs d y.name address).isSome = true ∧
        attrValue fs d y.name address ≠ some port) →
      deviceIDFor.scan fs port driver d after l =
        some (deviceIDFor.notFound port driver d after) := by
  intro l
  induction l with
  | nil =>
    intro _ _
    rfl
  | cons h t ih =>
    intro hA hP
    have ih2 := ih (fun hp y hy => hA hp y (List.mem_cons_of_mem _ hy))
      (fun hp y hy => hP hp y (List.mem_cons_of_mem _ hy))
    rw [deviceIDFor.scan]
    by_cases hp : port = []
    · simp only [hp, if_true]
      rw [hp] at ih2
      by_cases hle : h.id ≤ after
      · simp only [hle, if_true]
        exact ih2
      · simp only [hle, if_false]
        rcases hA hp h (List.mem_cons_self _ _) (not_le.1 hle) with hv | ⟨hsome, hne⟩
        · rcases hrf : fs.ReadFile (filepathJoin [d.path, h.name, driverName]) with ⟨b, err⟩
          rw [hrf] at hv
          simp only at hv
          subst hv
          simp only [hrf, LibError.IsNotExist, if_true]
          exact ih2
        · obtain ⟨c, hc⟩ := Option.isSome_iff_exists.1 hsome
          obtain ⟨b, hrf, hch⟩ := attrValue_eq_some fs d h.name driverName c hc
          have hdc : driver ≠ c := by
            intro hdc
            apply hne
            rw [hc, hdc]
          simp only [hrf, hch, ne_eq, hdc, not_false_eq_true, if_true]
          exact ih2
    · simp only [hp, if_false]
      obtain ⟨hsome, hne⟩ := hP hp h (List.mem_cons_self _ _)
      obtain ⟨c, hc⟩ := Option.isSome_iff_exists.1 hsome
      obtain ⟨b, hrf, hch⟩ := attrValue_eq_some fs d h.name address c hc
      have hpc : port ≠ c := by
        intro hpc
        apply hne
        rw [hc, hpc]
      simp only [hrf, hch, ne_eq, hpc, not_false_eq_true, if_true]
      exact ih2

/-- The texts of the three not-found messages differ, whatever the operands and
the quoting of `%q`. -/
theorem notFound_messages_distinct (quote : GoString → GoString)
    (driver port typ : GoString) (after : Int) :
    ∃ m1 m2 m3,
      render quote "ev3dev: could not find device for driver %q on port %s".toList
          [.str driver, .str port] = some m1 ∧
        render quote "ev3dev: could not find device for driver %q".toList
          [.str driver] = some m2 ∧
        render quote "ev3dev: could find device with driver name %q after %s%d".toList
          [.str driver, .str typ, .int after] = some m3 ∧
        m1 ≠ m2 ∧ m1 ≠ m3 ∧ m2 ≠ m3 := by
  refine ⟨"ev3dev: could not find device for driver ".toList ++
      (quote driver ++ (" on port ".toList ++ (port ++ []))),
    "ev3dev: could not find device for driver ".toList ++ (quote driver ++ []),
    "ev3dev: could find device with driver name ".toList ++
      (quote driver ++ (" after ".toList ++ (typ ++ (itoa after ++ [])))),
    by rfl, by rfl, by rfl, ?_, ?_, ?_⟩
  · intro h
    have hlen := congrArg List.length h
    simp only [List.length_append, List.length_nil] at hlen
    have hB : " on port ".toList.length = 9 := rfl
    omega
  · intro h
    have h15 := congrArg (List.take 15) h
    have h1 : List.take 15 ("ev3dev: could not find device for driver ".toList ++
        (quote driver ++ (" on port ".toList ++ (port ++ [])))) = "ev3dev: could n".toList := rfl
    have h3 : List.take 15 ("ev3dev: could find device with driver name ".toList ++
        (quote driver ++ (" after ".toList ++ (typ ++ (itoa after ++ []))))) =
        "ev3dev: could f".toList := rfl
    rw [h1, h3] at h15
    exact absurd h15 (by decide)
  · intro h
    have h15 := congrArg (List.take 15) h
    have h2 : List.take 15 ("ev3dev: could not find device for driver ".toList ++
        (quote driver ++ [])) = "ev3dev: could n".toList := rfl
    have h3 : List.take 15 ("ev3dev: could find device with driver name ".toList ++
        (quote driver ++ (" after ".toList ++ (typ ++ (itoa after ++ []))))) =
        "ev3dev: could f".toList := rfl
    rw [h2, h3] at h15
    exact absurd h15 (by decide)

/-- Claim C16: when the listing is read, every prefixed name parses, and the
scan meets no read failure and no qualifying entry (find-after: every entry
above the cursor has vanished or has a readable driver name other than the
requested one; bind-by-port: every entry has a readable address other than the
port), `deviceIDFor` returns -1 with the not-found error chosen by the
criteria: driver and port for a non-empty port, the driver alone for an empty
port and `after < 0`, driver, class type and cursor for an empty port and
`after >= 0`.  The three message texts are pairwise distinct. -/
theorem deviceIDFor_not_found (S : Sorter) (w : Nat) (fs : Store) (port driver : GoString)
    (d : DevInfo) (after : Int) (names : List GoString)
    (hdir : devicesIn fs d.path = (names, none))
    (hparse : ∀ m ∈ names, d.typ.isPrefixOf m = true →
      (Atoi w (m.drop d.typ.length)).toOption.isSome = true)
    (hafter : port = [] → ∀ m ∈ names, ∀ j ∈ idOf w d.typ m, after < j →
      (fs.ReadFile (filepathJoin [d.path, m, driverName])).2 = some .notExist ∨
        ((attrValue fs d m driverName).isSome = true ∧
          attrValue fs d m driverName ≠ some driver))
    (hport : port ≠ [] → ∀ m ∈ names, ∀ _j ∈ idOf w d.typ m,
      (attrValue fs d m address).isSome = true ∧ attrValue fs d m address ≠ some port) :
    (port ≠ [] → deviceIDFor S w fs port driver d after =
        some (-1, some (.errorf "ev3dev: could not find device for driver %q on port %s".toList
          [.str driver, .str port]))) ∧
      (port = [] → after < 0 → deviceIDFor S w fs port driver d after =
        some (-1, some (.errorf "ev3dev: could not find device for driver %q".toList
          [.str driver]))) ∧
      (port = [] → 0 ≤ after → deviceIDFor S w fs port driver d after =
        some (-1, some (.errorf
          "ev3dev: could find device with driver name %q after %s%d".toList
          [.str driver, .str d.typ, .int after]))) ∧
      ∀ quote : GoString → GoString, ∃ m1 m2 m3,
        render quote "ev3dev: could not find device for driver %q on port %s".toList
            [.str driver, .str port] = some m1 ∧
          render quote "ev3dev: could not find device for driver %q".toList
            [.str driver] = some m2 ∧
          render quote "ev3dev: could find device with driver name %q after %s%d".toList
            [.str driver, .str d.typ, .int after] = some m3 ∧
          m1 ≠ m2 ∧ m1 ≠ m3 ∧ m2 ≠ m3 := by
  have hres : deviceIDFor S w fs port driver d after =
      some (deviceIDFor.notFound port driver d after) := by
    simp only [deviceIDFor, hdir, sortedDevices_ok S w names d.typ hparse]
    apply scan_not_found
    · intro hp y hy hay
      have hm := (mem_collected S w names d.typ y).1 hy
      exact hafter hp y.name hm.1 y.id hm.2 hay
    · intro hp y hy
      have hm := (mem_collected S w names d.typ y).1 hy
      exact hport hp y.name hm.1 y.id hm.2
  refine ⟨?_, ?_, ?_, fun quote => notFound_messages_distinct quote driver port d.typ after⟩
  · intro hp
    rw [hres]
    simp [deviceIDFor.notFound, hp]
  · intro hp ha
    rw [hres]
    simp [deviceIDFor.notFound, hp, ha]
  · intro hp ha
    rw [hres]
    simp [deviceIDFor.notFound, hp, not_lt.2 ha]

/-- Claim C16 over motor10, motor2, motor0, all large motors on the ports outC,
outB and outA: no device on port outD, no medium motor at all, no large motor
after motor10. -/
theorem deviceIDFor_not_found_witness :
    deviceIDFor insertionSorter 64 motorStore "outD".toList lMotor exampleMotor (-1) =
        some (-1, some (.errorf "ev3dev: could not find device for driver %q on port %s".toList
          [.str lMotor, .str "outD".toList])) ∧
      deviceIDFor insertionSorter 64 motorStore [] mMotor exampleMotor (-1) =
        some (-1, some (.errorf "ev3dev: could not find device for driver %q".toList
          [.str mMotor])) ∧
      deviceIDFor insertionSorter 64 motorStore [] lMotor exampleMotor 10 =
        some (-1, some (.errorf
          "ev3dev: could find device with driver name %q after %s%d".toList
          [.str lMotor, .str motorPrefix, .int 10])) :=
  ⟨(deviceIDFor_not_found insertionSorter 64 motorStore "outD".toList lMotor exampleMotor (-1)
      ["motor10".toList, "motor2".toList, "motor0".toList]
      (by decide) (by decide) (by decide) (by decide)).1 (by decide),
    (deviceIDFor_not_found insertionSorter 64 motorStore [] mMotor exampleMotor (-1)
      ["motor10".toList, "motor2".toList, "motor0".toList]
      (by decide) (by decide) (by decide) (by decide)).2.1 rfl (by decide),
    (deviceIDFor_not_found insertionSorter 64 motorStore [] lMotor exampleMotor 10
      ["motor10".toList, "motor2".toList, "motor0".toList]
      (by decide) (by decide) (by decide) (by decide)).2.2.1 rfl (by decide)⟩

/-! ## FindAfter -/

/-- Claim C17: when `FindAfter` returns an error, `dst` is as it was; when it
returns nil, `dst` has been given, by one `setID`, the id that `deviceIDFor`
found after the id of `d` (after -1 for a nil `d`); a destination type that is
not supported and a source of another concrete type are reported whatever the
file system holds. -/
theorem FindAfter_frame (S : Sorter) (w : Nat) (fs : Store) (d : Option Handle)
    (dst : Handle) (driver : GoString) :
    (∀ e dst2, FindAfter S w fs d dst driver = some (some e, dst2) → dst2 = dst) ∧
      (∀ dst2, FindAfter S w fs d dst driver = some (none, dst2) →
        ∃ id, deviceIDFor S w fs [] driver dst.DevInfo
            (match d with
              | none => -1
              | some h => h.idInt) = some (id, none) ∧
          dst2 = dst.setID id) ∧
      (∀ h, d = some h → dst.isIDSetter = true → h.goType ≠ dst.goType →
        ∀ fs2 : Store, FindAfter S w fs2 d dst driver =
          some (some (.errorf "ev3dev: device types do not match %T != %T".toList
            [.typ h.goType, .typ dst.goType]), dst)) ∧
      (dst.isIDSetter = false →
        ∀ fs2 : Store, FindAfter S w fs2 d dst driver =
          some (some (.errorf "ev3dev: device type %T not supported".toList
            [.typ dst.goType]), dst)) := by
  cases hset : dst.isIDSetter with
  | false => simp [FindAfter, hset]
  | true =>
    cases d with
    | none =>
      rcases hdev : deviceIDFor S w fs [] driver dst.DevInfo (-1) with _ | ⟨id, _ | err⟩ <;>
        simp [FindAfter, hset, hdev]
    | some h =>
      by_cases hty : h.goType = dst.goType
      · cases hs : h.isIDSetter with
        | false => simp [FindAfter, hset, hty, hs]
        | true =>
          rcases hdev : deviceIDFor S w fs [] driver dst.DevInfo h.idInt with
            _ | ⟨id, _ | err⟩ <;>
            simp [FindAfter, hset, hty, hs, hdev]
      · simp [FindAfter, hset, hty]

/-- Claim C17 on an unbound tacho motor handle over motor10, motor2, motor0:
the large motor is found and the id becomes 0; no medium motor is found and
the handle is as before; a sensor as source is rejected on every store. -/
theorem FindAfter_frame_witness :
    FindAfter insertionSorter 64 motorStore none unboundMotor lMotor =
        some (none, { unboundMotor with id := 0 }) ∧
      (∀ e dst2, FindAfter insertionSorter 64 motorStore none unboundMotor mMotor =
        some (some e, dst2) → dst2 = unboundMotor) ∧
      ∀ fs2 : Store, FindAfter insertionSorter 64 fs2 (some sensor0) unboundMotor lMotor =
        some (some (.errorf "ev3dev: device types do not match %T != %T".toList
          [.typ sensor0.goType, .typ unboundMotor.goType]), unboundMotor) :=
  ⟨by decide,
    (FindAfter_frame insertionSorter 64 motorStore none unboundMotor mMotor).1,
    (FindAfter_frame insertionSorter 64 motorStore (some sensor0) unboundMotor lMotor).2.2.1
      sensor0 rfl rfl (by decide)⟩

/-! ## Parsing and ordering the directory names -/

/-- Only a string of digits has a value. -/
theorem digitsValue_some_allDigits : ∀ (s : GoString) (n v : Nat),
    digitsValue s n = some v → allDigits s = true := by
  intro s
  induction s with
  | nil => intro n v _; rfl
  | cons c cs ih =>
    intro n v h
    simp only [digitsValue] at h
    split_ifs at h with hc
    have := ih _ _ h
    simp only [allDigits, List.all_cons, Bool.and_eq_true, decide_eq_true_eq] at this ⊢
    exact ⟨hc, this⟩

/-- The part of `Atoi` after the sign: success needs at least one digit and
nothing but digits, and without a minus sign the value is not negative. -/
theorem Atoi_core_ok (w : Nat) (s digits : GoString) (neg : Bool) (i : Int)
    (h : (if digits = [] then Except.error (LibError.numError s)
      else
        match digitsValue digits 0 with
        | none => Except.error (LibError.numError s)
        | some n =>
          if neg = true then
            if n ≤ 2 ^ (w - 1) then Except.ok (-(n : Int)) else Except.error (LibError.numError s)
          else if n < 2 ^ (w - 1) then Except.ok (n : Int) else Except.error (LibError.numError s)) =
      Except.ok i) :
    (decide (digits ≠ []) && allDigits digits) = true ∧ (neg = false → 0 ≤ i) := by
  by_cases hr : digits = []
  · simp [hr] at h
  · simp only [hr, if_false] at h
    cases hd : digitsValue digits 0 with
    | none => simp [hd] at h
    | some n =>
      have hall := digitsValue_some_allDigits digits 0 n hd
      refine ⟨by simp [hr, hall], ?_⟩
      intro hneg
      subst hneg
      simp only [hd, Bool.false_eq_true, if_false] at h
      split_ifs at h
      cases h
      exact Int.ofNat_nonneg n

/-- What `Atoi` accepts is an optional sign followed by digits; the value is
negative only after a minus sign. -/
theorem Atoi_ok_signed (w : Nat) (s : GoString) (i : Int) (h : Atoi w s = .ok i) :
    isSignedDecimal s = true ∧ (s.head? ≠ some '-' → 0 ≤ i) := by
  unfold Atoi at h
  split at h
  rename_i neg digits heq
  have hcore := Atoi_core_ok w s digits neg i h
  split at heq
  · cases heq
    exact ⟨hcore.1, fun hh => absurd rfl hh⟩
  · cases heq
    exact ⟨hcore.1, fun _ => hcore.2 rfl⟩
  · rename_i h1 h2
    cases heq
    refine ⟨?_, fun _ => hcore.2 rfl⟩
    unfold isSignedDecimal
    split
    · exact absurd rfl (h1 _)
    · exact absurd rfl (h2 _)
    · exact hcore.1
/-- A prefixed name whose remainder `Atoi` rejects makes the loop of
`sortedDevices` return the parse error. -/
theorem sortedDevices_loop_error (w : Nat) (pfx : GoString) :
    ∀ (names : List GoString) (acc : List idDevice),
      (∃ n ∈ names, pfx.isPrefixOf n = true ∧
        (Atoi w (n.drop pfx.length)).toOption = none) →
      ∃ n e, n ∈ names ∧ sortedDevices.loop w pfx names acc =
        .error (.errorf "ev3dev: could not parse id from device name %q: %v".toList
          [.str n, .err e]) := by
  intro names
  induction names with
  | nil =>
    rintro acc ⟨n, hn, -⟩
    exact absurd hn (List.not_mem_nil n)
  | cons m names ih =>
    rintro acc ⟨n, hn, hp, hbad⟩
    rw [sortedDevices.loop]
    by_cases hpm : pfx.isPrefixOf m = true
    · cases ha : Atoi w (m.drop pfx.length) with
      | error e =>
        refine ⟨m, e, List.mem_cons_self _ _, ?_⟩
        simp only [hpm, Bool.not_true, Bool.false_eq_true, if_false]
      | ok i =>
        have hrest : n ∈ names := by
          rcases List.mem_cons.1 hn with rfl | h
          · rw [ha] at hbad
            simp [Except.toOption] at hbad
          · exact h
        obtain ⟨n2, e, hn2, hres⟩ := ih (acc ++ [⟨i, m⟩]) ⟨n, hrest, hp, hbad⟩
        refine ⟨n2, e, List.mem_cons_of_mem _ hn2, ?_⟩
        simp only [hpm, Bool.not_true, Bool.false_eq_true, if_false]
        exact hres
    · have hrest : n ∈ names := by
        rcases List.mem_cons.1 hn with rfl | h
        · exact absurd hp hpm
        · exact h
      obtain ⟨n2, e, hn2, hres⟩ := ih acc ⟨n, hrest, hp, hbad⟩
      refine ⟨n2, e, List.mem_cons_of_mem _ hn2, ?_⟩
      simp only [hpm, Bool.not_false, if_true]
      exact hres

/-- When `sortedDevices` returns a list, every prefixed name was accepted by
`Atoi`. -/
theorem sortedDevices_ok_parse (S : Sorter) (w : Nat) (names : List GoString) (pfx : GoString)
    (l : List idDevice) (h : sortedDevices S w names pfx = .ok l) :
    ∀ m ∈ names, pfx.isPrefixOf m = true →
      (Atoi w (m.drop pfx.length)).toOption.isSome = true := by
  intro m hm hp
  cases hopt : (Atoi w (m.drop pfx.length)).toOption with
  | some i => rfl
  | none =>
    obtain ⟨n, e, -, hres⟩ := sortedDevices_loop_error w pfx names [] ⟨m, hm, hp, hopt⟩
    rw [sortedDevices, hres] at h
    exact absurd h (by simp [Except.map])

/-- The id of a name is defined exactly when the name has the prefix and
`Atoi` accepts the rest. -/
theorem idOf_eq_some (w : Nat) (pfx n : GoString) (i : Int) (h : idOf w pfx n = some i) :
    pfx.isPrefixOf n = true ∧ Atoi w (n.drop pfx.length) = .ok i := by
  unfold idOf at h
  split_ifs at h with hp
  refine ⟨hp, ?_⟩
  cases ha : Atoi w (n.drop pfx.length) with
  | error e =>
    rw [ha] at h
    simp [Except.toOption] at h
  | ok j =>
    rw [ha] at h
    simp only [Except.toOption, Option.some.injEq] at h
    rw [h]

/-- Claim C18 as stated fails: the remainder of motor-1 is not a string of
decimal digits, and `sortedDevices` returns the device with the id -1. -/
theorem sortedDevices_accepts_sign :
    motorPrefix.isPrefixOf "motor-1".toList = true ∧
      allDigits ("motor-1".toList.drop motorPrefix.length) = false ∧
      sortedDevices insertionSorter 64 ["motor-1".toList] motorPrefix =
        .ok [⟨-1, "motor-1".toList⟩] :=
  ⟨by decide, by decide, rfl⟩

/-- Claim C18, amended: if some name has the prefix and a remainder that
`strconv.Atoi` rejects, as it does every string that is not an optional sign
followed by at least one decimal digit and nothing else, `sortedDevices`
returns the parse error for a listed name and no device list.  Every id it
returns is the value `Atoi` gave for the remainder of the listed name with the
prefix, a signed decimal; it is not negative unless the remainder starts with
a minus sign. -/
theorem sortedDevices_parse_fatal (S : Sorter) (w : Nat) (names : List GoString)
    (pfx : GoString) :
    ((∃ n ∈ names, pfx.isPrefixOf n = true ∧
        (Atoi w (n.drop pfx.length)).toOption = none) →
      ∃ n e, n ∈ names ∧ sortedDevices S w names pfx =
        .error (.errorf "ev3dev: could not parse id from device name %q: %v".toList
          [.str n, .err e])) ∧
      (∀ s : GoString, isSignedDecimal s = false → (Atoi w s).toOption = none) ∧
      (∀ l, sortedDevices S w names pfx = .ok l →
        ∀ x ∈ l, x.name ∈ names ∧ pfx.isPrefixOf x.name = true ∧
          Atoi w (x.name.drop pfx.length) = .ok x.id ∧
          isSignedDecimal (x.name.drop pfx.length) = true ∧
          ((x.name.drop pfx.length).head? ≠ some '-' → 0 ≤ x.id)) := by
  refine ⟨?_, ?_, ?_⟩
  · intro hbad
    obtain ⟨n, e, hn, hres⟩ := sortedDevices_loop_error w pfx names [] hbad
    refine ⟨n, e, hn, ?_⟩
    rw [sortedDevices, hres]
    rfl
  · intro s hs
    cases ha : Atoi w s with
    | error e => rfl
    | ok i =>
      have := (Atoi_ok_signed w s i ha).1
      rw [hs] at this
      exact absurd this (by simp)
  · intro l hl x hx
    have hparse := sortedDevices_ok_parse S w names pfx l hl
    rw [sortedDevices_ok S w names pfx hparse] at hl
    have hl2 : S.sort (names.filterMap fun m => (idOf w pfx m).map fun i => ⟨i, m⟩) = l := by
      injection hl
    rw [← hl2] at hx
    obtain ⟨hmem, hid⟩ := (mem_collected S w names pfx x).1 hx
    obtain ⟨hp, ha⟩ := idOf_eq_some w pfx x.name x.id hid
    obtain ⟨hsd, hnn⟩ := Atoi_ok_signed w _ _ ha
    exact ⟨hmem, hp, ha, hsd, hnn⟩

/-- The amended claim C18 over motor0 and motorX: the remainder X is rejected
and the call returns the parse error. -/
theorem sortedDevices_parse_fatal_witness :
    ∃ n e, n ∈ ["motor0".toList, "motorX".toList] ∧
      sortedDevices insertionSorter 64 ["motor0".toList, "motorX".toList] motorPrefix =
        .error (.errorf "ev3dev: could not parse id from device name %q: %v".toList
          [.str n, .err e]) :=
  (sortedDevices_parse_fatal insertionSorter 64 ["motor0".toList, "motorX".toList]
    motorPrefix).1 ⟨"motorX".toList, by decide, by decide, by decide⟩

/-- A string of digits has its decimal value. -/
theorem digitsValue_of_allDigits : ∀ (s : GoString) (n : Nat), allDigits s = true →
    digitsValue s n = some (s.foldl (fun n c => n * 10 + (c.toNat - '0'.toNat)) n) := by
  intro s
  induction s with
  | nil => intro n _; rfl
  | cons c cs ih =>
    intro n h
    simp only [allDigits, List.all_cons, Bool.and_eq_true, decide_eq_true_eq] at h
    simp only [digitsValue, h.1, and_self, if_true, List.foldl_cons]
    exact ih _ (by simpa [allDigits] using h.2)

/-- On a non-empty string of digits whose value fits, `Atoi` returns the
value. -/
theorem Atoi_of_digits (w : Nat) (s : GoString) (hne : s ≠ []) (hall : allDigits s = true)
    (hlt : decimalValue s < 2 ^ (w - 1)) : Atoi w s = .ok (decimalValue s : Int) := by
  have hcore : ∀ digits : GoString, digits = s →
      (if digits = [] then Except.error (LibError.numError s)
      else
        match digitsValue digits 0 with
        | none => Except.error (LibError.numError s)
        | some n =>
          if false = true then
            if n ≤ 2 ^ (w - 1) then Except.ok (-(n : Int)) else Except.error (LibError.numError s)
          else if n < 2 ^ (w - 1) then Except.ok (n : Int) else Except.error (LibError.numError s)) =
      Except.ok (decimalValue s : Int) := by
    intro digits hd
    subst hd
    have hlt2 : List.foldl (fun n c => n * 10 + (c.toNat - '0'.toNat)) 0 digits < 2 ^ (w - 1) := hlt
    simp only [hne, if_false, digitsValue_of_allDigits digits 0 hall, Bool.false_eq_true,
      hlt2, if_true]
    rfl
  cases s with
  | nil => exact absurd rfl hne
  | cons c r =>
    have hc : '0' ≤ c ∧ c ≤ '9' := by
      simp only [allDigits, List.all_cons, Bool.and_eq_true, decide_eq_true_eq] at hall
      exact hall.1
    unfold Atoi
    split
    rename_i neg digits heq
    split at heq
    · rename_i r2 hs
      cases hs
      exact absurd hc.1 (by decide)
    · rename_i r2 hs
      cases hs
      exact absurd hc.1 (by decide)
    · cases heq
      exact hcore _ rfl
/-- When every prefixed name ends in digits whose value fits, the entries
collected are the prefixed names, in directory order, each with the value of
its digits. -/
theorem collected_eq_map (w : Nat) (pfx : GoString) :
    ∀ names : List GoString,
      (∀ n ∈ names, pfx.isPrefixOf n = true →
        n.drop pfx.length ≠ [] ∧ allDigits (n.drop pfx.length) = true ∧
          decimalValue (n.drop pfx.length) < 2 ^ (w - 1)) →
      (names.filterMap fun m => (idOf w pfx m).map fun i => (⟨i, m⟩ : idDevice)) =
        (names.filter fun n => pfx.isPrefixOf n).map
          fun n => ⟨(decimalValue (n.drop pfx.length) : Int), n⟩ := by
  intro names
  induction names with
  | nil =>
    intro _
    rfl
  | cons n names ih =>
    intro h
    have ih2 := ih fun m hm => h m (List.mem_cons_of_mem _ hm)
    by_cases hp : pfx.isPrefixOf n = true
    · obtain ⟨h1, h2, h3⟩ := h n (List.mem_cons_self _ _) hp
      have hid : idOf w pfx n = some (decimalValue (n.drop pfx.length) : Int) := by
        simp [idOf, hp, Atoi_of_digits w _ h1 h2 h3, Except.toOption]
      rw [List.filterMap_cons, hid, List.filter_cons]
      simp only [Option.map_some', hp, if_true, List.map_cons]
      rw [ih2]
    · have hid : idOf w pfx n = none := by simp [idOf, hp]
      rw [List.filterMap_cons, hid, List.filter_cons]
      simp only [Option.map_none', hp, Bool.false_eq_true, if_false]
      exact ih2

/-- Claim C20 as stated fails: the suffix of motor9223372036854775808 is a
string of decimal digits, and `sortedDevices` with a 64-bit `int` returns the
parse error, not an entry for the name. -/
theorem sortedDevices_digits_out_of_range :
    motorPrefix.isPrefixOf "motor9223372036854775808".toList = true ∧
      allDigits ("motor9223372036854775808".toList.drop motorPrefix.length) = true ∧
      sortedDevices insertionSorter 64 ["motor9223372036854775808".toList] motorPrefix =
        .error (.errorf "ev3dev: could not parse id from device name %q: %v".toList
          [.str "motor9223372036854775808".toList,
            .err (.numError "9223372036854775808".toList)]) :=
  ⟨by decide, by decide, rfl⟩

/-- Claim C20, amended: when every name with the class prefix ends in a
non-empty string of decimal digits whose value fits an `int`, `sortedDevices`
returns a permutation of the prefixed names, each paired with the integer
value of its digits, so that names without the prefix are dropped and none is
lost or repeated, in non-decreasing order of the ids; motor10 comes after
motor2. -/
theorem sortedDevices_numeric_order (S : Sorter) (w : Nat) (names : List GoString)
    (pfx : GoString)
    (hdig : ∀ n ∈ names, pfx.isPrefixOf n = true →
      n.drop pfx.length ≠ [] ∧ allDigits (n.drop pfx.length) = true ∧
        decimalValue (n.drop pfx.length) < 2 ^ (w - 1)) :
    (∃ l, sortedDevices S w names pfx = .ok l ∧
        l.Perm ((names.filter fun n => pfx.isPrefixOf n).map
          fun n => ⟨(decimalValue (n.drop pfx.length) : Int), n⟩) ∧
        l.Pairwise fun a b => a.id ≤ b.id) ∧
      sortedDevices insertionSorter 64 ["motor10".toList, "motor2".toList] motorPrefix =
        .ok [⟨2, "motor2".toList⟩, ⟨10, "motor10".toList⟩] := by
  refine ⟨?_, rfl⟩
  have hparse : ∀ m ∈ names, pfx.isPrefixOf m = true →
      (Atoi w (m.drop pfx.length)).toOption.isSome = true := by
    intro m hm hp
    obtain ⟨h1, h2, h3⟩ := hdig m hm hp
    rw [Atoi_of_digits w _ h1 h2 h3]
    rfl
  refine ⟨_, sortedDevices_ok S w names pfx hparse, ?_, ?_⟩
  · rw [← collected_eq_map w pfx names hdig]
    exact S.perm _
  · refine List.Pairwise.imp ?_ (S.sorted _)
    intro a b hab
    simpa [byID.Less] using hab

/-- The amended claim C20 over motor10, address, motor2, motor0. -/
theorem sortedDevices_numeric_order_witness :
    (∃ l, sortedDevices insertionSorter 64
          ["motor10".toList, "address".toList, "motor2".toList, "motor0".toList] motorPrefix =
          .ok l ∧
        l.Perm ((["motor10".toList, "address".toList, "motor2".toList, "motor0".toList].filter
          fun n => motorPrefix.isPrefixOf n).map
          fun n => ⟨(decimalValue (n.drop motorPrefix.length) : Int), n⟩) ∧
        l.Pairwise fun a b => a.id ≤ b.id) ∧
      sortedDevices insertionSorter 64 ["motor10".toList, "motor2".toList] motorPrefix =
        .ok [⟨2, "motor2".toList⟩, ⟨10, "motor10".toList⟩] :=
  sortedDevices_numeric_order insertionSorter 64
    ["motor10".toList, "address".toList, "motor2".toList, "motor0".toList] motorPrefix
    (by decide)

/-! ## Key-value records -/

/-- Splitting on a byte gives one piece more than the byte occurs. -/
theorem splitOn_length (c : Char) : ∀ l : GoString, (l.splitOn c).length = l.count c + 1 := by
  intro l
  induction l with
  | nil => rfl
  | cons a l ih =>
    have ih2 : (List.splitOnP (fun x => x == c) l).length = l.count c + 1 := ih
    simp only [List.splitOn, List.splitOnP_cons, List.count_cons]
    by_cases h : a = c
    · simp [h, ih2]
    · have h2 : (a == c) = false := by simpa using h
      simp [h2, ih2]

/-- A line with exactly one `=` splits into the part before it and the part
after it. -/
theorem splitOn_pair (l : GoString) (h : l.count '=' = 1) :
    l.splitOn '=' = [(pairOf l).1, (pairOf l).2] := by
  induction l with
  | nil => simp at h
  | cons a l ih =>
    simp only [List.splitOn, List.splitOnP_cons, pairOf]
    by_cases ha : a = '='
    · subst ha
      have h0 : l.count '=' = 0 := by
        simp only [List.count_cons_self] at h
        omega
      have hnot : ∀ x ∈ l, ¬ ((fun x => x == '=') x = true) := by
        intro x hx hxe
        have : x = '=' := by simpa using hxe
        subst this
        exact (List.count_eq_zero.1 h0) hx
      have hs := List.splitOnP_eq_single (fun x => x == '=') l hnot
      rw [hs]
      simp
    · have h1 : l.count '=' = 1 := by
        rw [List.count_cons_of_ne (Ne.symm ha)] at h
        exact h
      have ih2 : List.splitOnP (fun x => x == '=') l = [(pairOf l).1, (pairOf l).2] := ih h1
      have h2 : (a == '=') = false := by simpa using ha
      have h3 : (a != '=') = true := by simp [ha]
      rw [ih2]
      simp [h2, h3, pairOf, List.takeWhile_cons, List.dropWhile_cons]
/-- A line with exactly one `=` is its two parts with the `=` between them. -/
theorem pairOf_join (l : GoString) (h : l.count '=' = 1) :
    l = (pairOf l).1 ++ '=' :: (pairOf l).2 := by
  have h1 : [ '='].intercalate (l.splitOn '=') = l := List.intercalate_splitOn l '='
  rw [splitOn_pair l h] at h1
  simpa [List.intercalate] using h1.symm

/-- A lookup passes over the pairs with another key. -/
theorem lookup_append_skip (k : GoString) :
    ∀ (xs ys : List (GoString × GoString)), (∀ p ∈ xs, p.1 ≠ k) →
      (xs ++ ys).lookup k = ys.lookup k := by
  intro xs
  induction xs with
  | nil => intro ys _; rfl
  | cons p xs ih =>
    intro ys h
    obtain ⟨a, b⟩ := p
    have hne : (k == a) = false := by
      have := h (a, b) (List.mem_cons_self _ _)
      simpa using fun hk => this hk.symm
    rw [List.cons_append, List.lookup_cons, hne]
    exact ih ys fun q hq => h q (List.mem_cons_of_mem _ hq)

/-- What a lookup finds is a pair of the list. -/
theorem lookup_mem (k v : GoString) :
    ∀ xs : List (GoString × GoString), xs.lookup k = some v → (k, v) ∈ xs := by
  intro xs
  induction xs with
  | nil => intro h; simp at h
  | cons p xs ih =>
    intro h
    obtain ⟨a, b⟩ := p
    rw [List.lookup_cons] at h
    by_cases hk : k = a
    · subst hk
      simp at h
      subst h
      exact List.mem_cons_self _ _
    · have hne : (k == a) = false := by simpa using hk
      rw [hne] at h
      exact List.mem_cons_of_mem _ (ih h)

/-- On well-formed lines the loop of `ueventFrom` assigns every line in turn
and returns the map. -/
theorem ueventFrom_loop_ok (d : DevInfo) (attr : GoString) :
    ∀ (lines : List GoString) (acc : List (GoString × GoString)),
      (∀ l ∈ lines, l.count '=' = 1) →
      ueventFrom.loop d attr lines acc = (some ((lines.map pairOf).reverse ++ acc), none) := by
  intro lines
  induction lines with
  | nil => intro acc _; rfl
  | cons l rest ih =>
    intro acc h
    simp only [ueventFrom.loop, splitOn_pair l (h l (List.mem_cons_self _ _))]
    rw [ih _ fun x hx => h x (List.mem_cons_of_mem _ hx)]
    simp

/-- The loop of `ueventFrom` stops at the first line that does not have exactly
one `=`. -/
theorem ueventFrom_loop_bad (d : DevInfo) (attr : GoString) :
    ∀ (lines : List GoString) (acc : List (GoString × GoString)),
      (∃ l ∈ lines, l.count '=' ≠ 1) →
      ∃ pre l post, lines = pre ++ l :: post ∧ (∀ x ∈ pre, x.count '=' = 1) ∧
        l.count '=' ≠ 1 ∧
        ueventFrom.loop d attr lines acc = (none, some (.parse d attr (.syntaxError l))) := by
  intro lines
  induction lines with
  | nil =>
    rintro acc ⟨l, hl, -⟩
    exact absurd hl (List.not_mem_nil l)
  | cons l rest ih =>
    intro acc hex
    by_cases hl : l.count '=' = 1
    · have hex2 : ∃ x ∈ rest, x.count '=' ≠ 1 := by
        obtain ⟨x, hx, hxn⟩ := hex
        rcases List.mem_cons.1 hx with rfl | hx2
        · exact absurd hl hxn
        · exact ⟨x, hx2, hxn⟩
      obtain ⟨pre, b, post, hsplit, hpre, hb, hres⟩ := ih ((pairOf l) :: acc) hex2
      refine ⟨l :: pre, b, post, by rw [hsplit]; rfl, ?_, hb, ?_⟩
      · intro x hx
        rcases List.mem_cons.1 hx with rfl | hx2
        · exact hl
        · exact hpre x hx2
      · simp only [ueventFrom.loop, splitOn_pair l hl]
        exact hres
    · refine ⟨[], l, rest, rfl, fun x hx => absurd hx (List.not_mem_nil x), hl, ?_⟩
      rw [ueventFrom.loop]
      split
      · rename_i k v heq
        have hlen := splitOn_length '=' l
        rw [heq] at hlen
        simp only [List.length_cons, List.length_nil] at hlen
        exact absurd (by omega) hl
      · rfl

/-- Claim C19: on a non-empty text `ueventFrom` succeeds when every line has
exactly one `=` and fails otherwise.  On success every line is its key, `=`
and its value, the map sends the key of a line to its value unless a later
line has the same key, and it holds nothing else; on failure no map is
returned, with the parse error for the first line that does not have exactly
one `=`.  The empty text gives the nil map and no error. -/
theorem ueventFrom_record (d : DevInfo) (data attr : GoString) (hne : data ≠ []) :
    ((∀ l ∈ data.splitOn '\n', l.count '=' = 1) →
        ∃ m, ueventFrom d data attr none = (some m, none) ∧
          (∀ l ∈ data.splitOn '\n', l = (pairOf l).1 ++ '=' :: (pairOf l).2) ∧
          (∀ pre l post, data.splitOn '\n' = pre ++ l :: post →
            (∀ x ∈ post, (pairOf x).1 ≠ (pairOf l).1) →
            m.lookup (pairOf l).1 = some (pairOf l).2) ∧
          (∀ k v, m.lookup k = some v → ∃ l ∈ data.splitOn '\n', pairOf l = (k, v))) ∧
      ((∃ l ∈ data.splitOn '\n', l.count '=' ≠ 1) →
        ∃ pre l post, data.splitOn '\n' = pre ++ l :: post ∧
          (∀ x ∈ pre, x.count '=' = 1) ∧ l.count '=' ≠ 1 ∧
          ueventFrom d data attr none = (none, some (.parse d attr (.syntaxError l)))) ∧
      ueventFrom d [] attr none = (none, none) := by
  have hlen : ¬ data.length = 0 := by
    intro h
    exact hne (List.length_eq_zero.1 h)
  refine ⟨?_, ?_, rfl⟩
  · intro hall
    refine ⟨((data.splitOn '\n').map pairOf).reverse ++ [], ?_, ?_, ?_, ?_⟩
    · simp only [ueventFrom, hlen, if_false]
      exact ueventFrom_loop_ok d attr _ [] hall
    · intro l hl
      exact pairOf_join l (hall l hl)
    · intro pre l post hsplit hpost
      rw [hsplit, List.map_append, List.map_cons, List.reverse_append, List.reverse_cons,
        List.append_assoc, List.append_assoc]
      rw [lookup_append_skip]
      · show List.lookup (pairOf l).1 (((pairOf l).1, (pairOf l).2) :: _) = _
        rw [List.lookup_cons_self]
      · intro p hp
        obtain ⟨x, hx, rfl⟩ := List.mem_map.1 (List.mem_reverse.1 hp)
        exact hpost x hx
    · intro k v hk
      have hmem := lookup_mem k v _ hk
      rw [List.append_nil, List.mem_reverse] at hmem
      obtain ⟨l, hl, hkv⟩ := List.mem_map.1 hmem
      exact ⟨l, hl, hkv⟩
  · intro hbad
    obtain ⟨pre, l, post, hsplit, hpre, hl, hres⟩ := ueventFrom_loop_bad d attr _ [] hbad
    refine ⟨pre, l, post, hsplit, hpre, hl, ?_⟩
    simp only [ueventFrom, hlen, if_false]
    exact hres

/-- Claim C19 on the record of the lines A=1, B=2, A=3. -/
theorem ueventFrom_record_witness :
    ∃ m, ueventFrom exampleMotor "A=1\nB=2\nA=3".toList "uevent".toList none = (some m, none) ∧
      (∀ l ∈ "A=1\nB=2\nA=3".toList.splitOn '\n', l = (pairOf l).1 ++ '=' :: (pairOf l).2) ∧
      (∀ pre l post, "A=1\nB=2\nA=3".toList.splitOn '\n' = pre ++ l :: post →
        (∀ x ∈ post, (pairOf x).1 ≠ (pairOf l).1) →
        m.lookup (pairOf l).1 = some (pairOf l).2) ∧
      (∀ k v, m.lookup k = some v →
        ∃ l ∈ "A=1\nB=2\nA=3".toList.splitOn '\n', pairOf l = (k, v)) :=
  (ueventFrom_record exampleMotor "A=1\nB=2\nA=3".toList "uevent".toList (by decide)).1
    (by decide)

/-! ## The exclusion mask and the two name tables -/

/-- Claim C21: with `any = false` the predicate holds exactly when
`status AND mask` equals `want AND NOT not`, bit by bit and as a number; hence
when `want` and `not` share no bit the result is the one for `not = 0`, namely
`status AND mask = want`. -/
theorem stateIsOK_all_absorbs_not (stat mask want not : MotorState) :
    (stateIsOK stat mask want not false = true ↔
        ∀ i, (stat &&& mask).testBit i = (want.testBit i && !not.testBit i)) ∧
      (stateIsOK stat mask want not false = true ↔ stat &&& mask = Nat.ldiff want not) ∧
      (want &&& not = 0 →
        stateIsOK stat mask want not false = stateIsOK stat mask want 0 false ∧
          (stateIsOK stat mask want not false = true ↔ stat &&& mask = want)) := by
  have hcode : stateIsOK stat mask want not false = true ↔
      (stat &&& mask) ^^^ not = want ||| not := by
    simp [stateIsOK]
  have hbits : stateIsOK stat mask want not false = true ↔
      ∀ i, (stat &&& mask).testBit i = (want.testBit i && !not.testBit i) := by
    rw [hcode]
    constructor
    · intro h i
      have hi := congrArg (fun x => Nat.testBit x i) h
      simp only [Nat.testBit_xor, Nat.testBit_or] at hi
      revert hi
      cases (stat &&& mask).testBit i <;> cases want.testBit i <;> cases not.testBit i <;> simp
    · intro h
      apply Nat.eq_of_testBit_eq
      intro i
      rw [Nat.testBit_xor, Nat.testBit_or, h i]
      cases want.testBit i <;> cases not.testBit i <;> rfl
  have hldiff : stateIsOK stat mask want not false = true ↔
      stat &&& mask = Nat.ldiff want not := by
    rw [hbits]
    constructor
    · intro h
      apply Nat.eq_of_testBit_eq
      intro i
      rw [h i, Nat.testBit_ldiff]
    · intro h i
      rw [h, Nat.testBit_ldiff]
  refine ⟨hbits, hldiff, ?_⟩
  intro hshare
  have hwant : Nat.ldiff want not = want := by
    apply Nat.eq_of_testBit_eq
    intro i
    have h0 : (want &&& not).testBit i = false := by rw [hshare]; simp
    rw [Nat.testBit_and] at h0
    rw [Nat.testBit_ldiff]
    revert h0
    cases want.testBit i <;> cases not.testBit i <;> simp
  have hiff : stateIsOK stat mask want not false = true ↔ stat &&& mask = want := by
    rw [hldiff, hwant]
  have hzero : stateIsOK stat mask want 0 false = true ↔ stat &&& mask = want := by
    simp [stateIsOK]
  refine ⟨?_, hiff⟩
  rw [Bool.eq_iff_iff, hiff, hzero]

/-- Claim C21 at status `running|stalled`, mask `running|holding|stalled`, want
`running|stalled` and `not = holding`, which share no bit. -/
theorem stateIsOK_all_absorbs_not_witness :
    stateIsOK (Running ||| Stalled) (Running ||| Holding ||| Stalled) (Running ||| Stalled)
        Holding false =
        stateIsOK (Running ||| Stalled) (Running ||| Holding ||| Stalled) (Running ||| Stalled)
          0 false ∧
      (stateIsOK (Running ||| Stalled) (Running ||| Holding ||| Stalled) (Running ||| Stalled)
          Holding false = true ↔
        (Running ||| Stalled) &&& (Running ||| Holding ||| Stalled) = Running ||| Stalled) :=
  (stateIsOK_all_absorbs_not (Running ||| Stalled) (Running ||| Holding ||| Stalled)
    (Running ||| Stalled) Holding).2.2 (by decide)

/-- Claim C22: entry `i` of `motorStates` is the key of the bit `1 << i` in
`motorStateTable`, for `i` from 0 to 4; for every mask `f` with `0 < f < 32`
the text `String(f)`, with each `|` replaced by a space, decodes with
`stateFrom` to `f`; and `String(0)` is "none". -/
theorem String_agrees_with_table (d : DevInfo) (attr : GoString) (f : MotorState)
    (h0 : 0 < f) (h32 : f < 32) :
    (∀ i, i < 5 →
        (motorStates[i]?).bind (fun s => motorStateTable.lookup s) = some (1 <<< i)) ∧
      stateFrom d ((MotorState.String f).map fun c => if c = '|' then ' ' else c) attr none =
        (f, none) ∧
      MotorState.String 0 = "none".toList := by
  refine ⟨by decide, ?_, by decide⟩
  interval_cases f <;> rfl

/-- Claim C22 at the mask `running|holding`, whose text is "running|holding". -/
theorem String_agrees_with_table_witness :
    MotorState.String (Running ||| Holding) = "running|holding".toList ∧
      stateFrom exampleMotor
        ((MotorState.String (Running ||| Holding)).map fun c => if c = '|' then ' ' else c)
        state none = (Running ||| Holding, none) :=
  ⟨by decide,
    (String_agrees_with_table exampleMotor state (Running ||| Holding) (by decide)
      (by decide)).2.1⟩

/-! ## Errors met while waiting -/

/-- The loop condition makes no state read, and when it ends the loop the last
operation was a clock reading. -/
theorem Wait_cond_spec (env : Env) (timeout end_ : Int) (st : WaitState) :
    (Wait.cond env timeout end_ st).2.reads = st.reads ∧
      ((Wait.cond env timeout end_ st).1 = false →
        (Wait.cond env timeout end_ st).2.lastPollTimedOut = false) := by
  unfold Wait.cond
  split_ifs with h
  · simp
  · simp [WaitState.now, WaitState.lastPollTimedOut]

/-- The loop of `Wait`, entered after reads that all decoded: a state read that
fails ends the call with its error, and a call that ends in a poll that
returned 0 returns the error of that poll. -/
theorem Wait_loop_errors (env : Env) (d : Device) (mask want not : MotorState) (any : Bool)
    (timeout end_ : Int) :
    ∀ (fuel : Nat) (st : WaitState) (stat : MotorState) (r : WaitResult),
      (∀ k, k < st.reads → ∃ s, motorState d.info (env.ReadAt k) = some (s, none)) →
      Wait.loop env d mask want not any timeout end_ fuel st stat = .done r →
      (∀ k, k < r.st.reads → ∀ s e, motorState d.info (env.ReadAt k) = some (s, some e) →
        r.stat = s ∧ r.ok = false ∧ r.err = some e ∧ r.st.reads = k + 1) ∧
      (r.st.lastPollTimedOut = true →
        ∃ k ms perr, env.Poll k ms = (0, perr) ∧ r.stat = 0 ∧ r.ok = false ∧
          r.err = perr.map Error.lib) := by
  have hclean : ∀ (st2 : WaitState),
      (∀ k, k < st2.reads → ∃ s, motorState d.info (env.ReadAt k) = some (s, none)) →
      ∀ k, k < st2.reads → ∀ s e, motorState d.info (env.ReadAt k) = some (s, some e) →
        False := by
    intro st2 hinv k hk s e hm
    obtain ⟨s2, hs2⟩ := hinv k hk
    rw [hs2] at hm
    simp at hm
  intro fuel
  induction fuel with
  | zero =>
    intro st stat r hinv h
    obtain ⟨hc1, hc2⟩ := Wait_cond_spec env timeout end_ st
    rcases hc : Wait.cond env timeout end_ st with ⟨go, st1⟩
    rw [hc] at hc1 hc2
    simp only [Wait.loop, hc] at h
    cases go with
    | true => simp at h
    | false =>
      simp only [Bool.false_eq_true, if_false, Run.done.injEq] at h
      subst h
      simp only at hc1 hc2 ⊢
      refine ⟨fun k hk s e hm => (hclean st1 (by rw [hc1]; exact hinv) k hk s e hm).elim, ?_⟩
      intro hl
      rw [hc2 (by simp)] at hl
      exact absurd hl (by simp)
  | succ fuel ih =>
    intro st stat r hinv h
    obtain ⟨hc1, hc2⟩ := Wait_cond_spec env timeout end_ st
    rcases hc : Wait.cond env timeout end_ st with ⟨go, st1⟩
    rw [hc] at hc1 hc2
    simp only at hc1 hc2
    have hinv1 : ∀ k, k < st1.reads → ∃ s, motorState d.info (env.ReadAt k) = some (s, none) := by
      rw [hc1]; exact hinv
    simp only [Wait.loop, hc] at h
    cases go with
    | false =>
      simp only [Bool.false_eq_true, if_false, Run.done.injEq] at h
      subst h
      refine ⟨fun k hk s e hm => (hclean st1 hinv1 k hk s e hm).elim, ?_⟩
      intro hl
      simp only at hl
      rw [hc2 (by simp)] at hl
      exact absurd hl (by simp)
    | true =>
      simp only [if_true] at h
      obtain ⟨-, hp2, hp3⟩ := Wait_poll_spec env timeout end_ st1
      rcases hpo : Wait.poll env timeout end_ st1 with ⟨st2, o⟩
      rw [hpo] at hp2 hp3
      simp only at hp2 hp3
      have hinv2 : ∀ k, k < st2.reads →
          ∃ s, motorState d.info (env.ReadAt k) = some (s, none) := by
        rw [hp2]; exact hinv1
      simp only [hpo] at h
      cases o with
      | some perr =>
        simp only [Run.done.injEq] at h
        subst h
        obtain ⟨-, -, k, ms, hkm⟩ := hp3 perr rfl
        exact ⟨fun k hk s e hm => (hclean st2 hinv2 k hk s e hm).elim,
          fun _ => ⟨k, ms, perr, hkm, rfl, rfl, rfl⟩⟩
      | none =>
        simp only [WaitState.read] at h
        rcases hm : motorState d.info (env.ReadAt st2.reads) with _ | ⟨s, _ | e⟩
        · simp [hm] at h
        · simp only [hm] at h
          by_cases hok : stateIsOK s mask want not any = true
          · simp only [hok, if_true, Run.done.injEq] at h
            subst h
            refine ⟨?_, fun hl => absurd hl (by simp [WaitState.lastPollTimedOut])⟩
            intro k hk s2 e2 hm2
            simp only at hk
            by_cases hk2 : k < st2.reads
            · exact (hclean st2 hinv2 k hk2 s2 e2 hm2).elim
            · have : k = st2.reads := by omega
              subst this
              rw [hm] at hm2
              simp at hm2
          · simp only [hok, Bool.false_eq_true, if_false] at h
            refine ih _ _ r ?_ h
            intro k hk
            rw [(Wait_relax_spec env end_ _).2] at hk
            simp only at hk
            by_cases hk2 : k < st2.reads
            · exact hinv2 k hk2
            · have : k = st2.reads := by omega
              subst this
              exact ⟨s, hm⟩
        · simp only [hm, Run.done.injEq] at h
          subst h
          refine ⟨?_, fun hl => absurd hl (by simp [WaitState.lastPollTimedOut])⟩
          intro k hk s2 e2 hm2
          simp only at hk
          by_cases hk2 : k < st2.reads
          · exact (hclean st2 hinv2 k hk2 s2 e2 hm2).elim
          · have : k = st2.reads := by omega
            subst this
            rw [hm] at hm2
            simp only [Option.some.injEq, Prod.mk.injEq] at hm2
            exact ⟨hm2.1, rfl, by rw [hm2.2], rfl⟩
/-- Whenever `Wait` returns, the handle is the one `Err` left behind. -/
theorem Wait_dev (env : Env) (d : Device) (mask want not : MotorState) (any : Bool)
    (timeout : Int) (fuel : Nat) (r : WaitResult)
    (hr : Wait env d mask want not any timeout fuel = .done r) :
    r.dev = { d with err := none } := by
  simp only [Wait, Device.Err] at hr
  split at hr
  · cases hr
    rfl
  · split at hr
    · cases hr
      rfl
    · split at hr
      · exact absurd hr (by simp)
      · cases hr
        rfl
      · split at hr
        · cases hr
          rfl
        · exact Wait_loop_dev _ _ _ _ _ _ _ _ _ _ _ r hr

/-- Claim C15 as stated fails in its last clause: with a timeout of 100 ms on a
device that reports "running" while "holding" is wanted, `unix.Poll` fails with
-1 and the error number 4, the loop goes on to the next read, and at the
deadline `Wait` returns a nil error; the error of the poll is not returned. -/
theorem Wait_poll_error_dropped :
    interruptedEnv.Poll 0 40 = (-1, some (.os 4)) ∧
      Wait interruptedEnv motor0 (Running ||| Holding) Holding 0 false 100000000 5 =
        .done ⟨Running, false, none, motor0,
          ⟨5, 2, 1, [.now, .sleep 5000000, .now, .read, .poll 40 (-1), .now, .now, .now,
            .readByte, .read, .openFile "/sys/class/tacho-motor/motor0/state".toList]⟩⟩ := by
  decide

/-- Claim C15, amended: on a handle whose latch holds `e`, `Wait` returns
`(0, false, e)` with no operation on its environment; whenever `Wait` returns
the latch is empty, so no path stores an error in it; the error of `os.Open`
is returned as it is; a state read that fails to read or to decode ends the
call with that error, the status decoded and `ok = false`, so that no read the
call made before was a failing one; and a call that ends in a `unix.Poll` that
returned 0 returns the error of that poll with status 0. -/
theorem Wait_error_paths (env : Env) (d : Device) (mask want not : MotorState) (any : Bool)
    (timeout : Int) (fuel : Nat) :
    (∀ e, d.err = some e → Wait env d mask want not any timeout fuel =
        .done ⟨0, false, some e, { d with err := none }, ⟨0, 0, 0, []⟩⟩) ∧
      (∀ r, Wait env d mask want not any timeout fuel = .done r →
        r.dev = { d with err := none }) ∧
      (d.err = none → ∀ e, env.Open (statePath d) = some e →
        Wait env d mask want not any timeout fuel =
          .done ⟨0, false, some (.lib e), d, ⟨0, 0, 0, [.openFile (statePath d)]⟩⟩) ∧
      (∀ r, Wait env d mask want not any timeout fuel = .done r →
        ∀ k, k < r.st.reads → ∀ s e, motorState d.info (env.ReadAt k) = some (s, some e) →
          r.stat = s ∧ r.ok = false ∧ r.err = some e ∧ r.st.reads = k + 1) ∧
      (∀ r, Wait env d mask want not any timeout fuel = .done r →
        r.st.lastPollTimedOut = true →
          ∃ k ms perr, env.Poll k ms = (0, perr) ∧ r.stat = 0 ∧ r.ok = false ∧
            r.err = perr.map Error.lib) := by
  refine ⟨?_, fun r hr => Wait_dev env d mask want not any timeout fuel r hr, ?_, ?_⟩
  · intro e he
    simp only [Wait, Device.Err, he]
  · intro hl e he
    have hd := clear_eq_self d hl
    simp only [statePath] at he
    simp only [Wait, Device.Err, hl, he, WaitState.log, statePath, hd]
  · cases hl : d.err with
    | some e0 =>
      have hW : Wait env d mask want not any timeout fuel =
          .done ⟨0, false, some e0, { d with err := none }, ⟨0, 0, 0, []⟩⟩ := by
        simp only [Wait, Device.Err, hl]
      rw [hW]
      constructor
      · intro r hr k hk
        cases hr
        exact absurd hk (by simp)
      · intro r hr hlp
        cases hr
        exact absurd hlp (by simp [WaitState.lastPollTimedOut])
    | none =>
      have hd := clear_eq_self d hl
      cases ho : env.Open (statePath d) with
      | some e =>
        have hW : Wait env d mask want not any timeout fuel =
            .done ⟨0, false, some (.lib e), d, ⟨0, 0, 0, [.openFile (statePath d)]⟩⟩ := by
          simp only [statePath] at ho
          simp only [Wait, Device.Err, hl, ho, WaitState.log, statePath, hd]
        rw [hW]
        constructor
        · intro r hr k hk
          cases hr
          exact absurd hk (by simp)
        · intro r hr hlp
          cases hr
          exact absurd hlp (by simp [WaitState.lastPollTimedOut])
      | none =>
        have ho2 : env.Open (filepathJoin [d.info.path, d.info.name, state]) = none := ho
        rcases hm : motorState d.info (env.ReadAt 0) with _ | ⟨s, _ | e⟩
        · have hW : Wait env d mask want not any timeout fuel = .panic := by
            simp only [Wait, Device.Err, hl, ho2, WaitState.read, WaitState.log, hm, hd]
          rw [hW]
          constructor
          · intro r hr
            exact absurd hr (by simp)
          · intro r hr
            exact absurd hr (by simp)
        · by_cases hok : stateIsOK s mask want not any = true
          · have hW : Wait env d mask want not any timeout fuel =
                .done ⟨s, true, none, d, ⟨0, 1, 0, [.read, .openFile (statePath d)]⟩⟩ := by
              simp only [Wait, Device.Err, hl, ho2, WaitState.read, WaitState.log, hm, hok,
                if_true, statePath, hd]
            rw [hW]
            constructor
            · intro r hr k hk s2 e2 hm2
              cases hr
              have hk0 : k = 0 := by
                simp only at hk
                omega
              subst hk0
              rw [hm] at hm2
              simp at hm2
            · intro r hr hlp
              cases hr
              exact absurd hlp (by simp [WaitState.lastPollTimedOut])
          · have hnot : stateIsOK s mask want not any = false := by simpa using hok
            rw [Wait_eq_loop env d mask want not any timeout fuel s hl ho hm hnot]
            have hinv : ∀ k, k < (⟨1, 1, 0, .now :: ((if env.canPoll then [Event.readByte]
                else []) ++ [.read, .openFile (statePath d)])⟩ : WaitState).reads →
                ∃ s, motorState d.info (env.ReadAt k) = some (s, none) := by
              intro k hk
              have hk0 : k = 0 := by
                simp only at hk
                omega
              subst hk0
              exact ⟨s, hm⟩
            constructor
            · intro r hr
              exact (Wait_loop_errors env d mask want not any timeout _ fuel _ s r hinv hr).1
            · intro r hr
              exact (Wait_loop_errors env d mask want not any timeout _ fuel _ s r hinv hr).2
        · have hW : Wait env d mask want not any timeout fuel =
              .done ⟨s, false, some e, d, ⟨0, 1, 0, [.read, .openFile (statePath d)]⟩⟩ := by
            simp only [Wait, Device.Err, hl, ho2, WaitState.read, WaitState.log, hm, hd,
              statePath]
          rw [hW]
          constructor
          · intro r hr k hk s2 e2 hm2
            cases hr
            have hk0 : k = 0 := by
              simp only at hk
              omega
            subst hk0
            rw [hm] at hm2
            simp only [Option.some.injEq, Prod.mk.injEq] at hm2
            exact ⟨hm2.1, rfl, by rw [hm2.2], rfl⟩
          · intro r hr hlp
            cases hr
            exact absurd hlp (by simp [WaitState.lastPollTimedOut])
/-- The amended claim C15 on three calls: a latch that holds "buffer full", a
state file that does not exist, and a device that reports the unknown state
"flying". -/
theorem Wait_error_paths_witness :
    Wait (runningEnv true) motor0Latched (Running ||| Holding) Holding 0 false 100000000 5 =
        .done ⟨0, false, some .bufferFull, motor0, ⟨0, 0, 0, []⟩⟩ ∧
      Wait missingEnv motor0 (Running ||| Holding) Holding 0 false 100000000 5 =
        .done ⟨0, false, some (.lib .notExist), motor0,
          ⟨0, 0, 0, [.openFile (statePath motor0)]⟩⟩ ∧
      ∀ r, Wait flyingEnv motor0 (Running ||| Holding) Holding 0 false 100000000 5 = .done r →
        r.stat = 0 ∧ r.ok = false ∧
          r.err = some (.invalidValue motor0.info state "unrecognized motor state".toList
            "flying".toList [holding, overloaded, ramping, running, stalled]) ∧
          r.st.reads = 0 + 1 :=
  ⟨(Wait_error_paths (runningEnv true) motor0Latched (Running ||| Holding) Holding 0 false
      100000000 5).1 .bufferFull rfl,
    (Wait_error_paths missingEnv motor0 (Running ||| Holding) Holding 0 false
      100000000 5).2.2.1 rfl .notExist rfl,
    fun r hr =>
      (Wait_error_paths flyingEnv motor0 (Running ||| Holding) Holding 0 false
        100000000 5).2.2.2.1 r hr 0
        (by
          have h : Wait flyingEnv motor0 (Running ||| Holding) Holding 0 false 100000000 5 =
              .done ⟨0, false,
                some (.invalidValue motor0.info state "unrecognized motor state".toList
                  "flying".toList [holding, overloaded, ramping, running, stalled]),
                motor0, ⟨0, 1, 0, [.read, .openFile (statePath motor0)]⟩⟩ := by decide
          rw [h] at hr
          cases hr
          decide)
        0 _ (by decide)⟩

end Ev3dev
